import Mathlib

/-!
wswitch: window registry, switcher commands and the wlr backend.

A shallow embedding of the parts of `src/data.c`, `src/main.c` and
`src/wlr_backend.c` that decide the behaviour of the window registry
(`AppState`), of the command dispatcher (`handle_command` with
`show_switcher`, `hide_switcher`, `select_and_hide`), of the
protocol-listener backend (the `WindowNode` list with its callbacks) and of
the compositor part of the loop of `run_daemon`.

Conventions of the embedding.

* C `int` values are `Int`; `%` on `int` is the truncating `Int.tmod`.  The
  registry sizes the program can build stay far below `2 ^ 30`, so no `int`
  expression of the modelled code leaves the 32-bit range.
* A C string is a `String`; a `char *` that may be `NULL` is an
  `Option String`; `strcmp (a, b) == 0` is `a = b`.
* Other pointers are `Nat` addresses with `0` for `NULL`.
* The globals of `main.c` are the fields of `Daemon`, the static
  `backend_state` of `wlr_backend.c` is a `WlrBackendState`; functions that
  mutate them take the old value and return the new one.
* Calls into the backend and the renderer are recorded in a `List Call`
  returned next to the new state.  Wayland requests on the overlay surface
  (`attach`, `commit`, `flush`, `set_size`, ...) and the log output do not
  change the modelled state and are not recorded.
-/

namespace Wswitch

/-! ## `data.c`: the window registry -/

/-- Modelled from the spec: `data.h` is not among the sources.  One tracked
window, with the fields that `wlr_get_windows` assigns and that section 3 of
the specification lists. -/
structure WindowInfo where
  address : String
  title : String
  class_name : String
  workspace_id : Int
  is_active : Bool
  is_floating : Bool
  group_count : Int
  deriving DecidableEq, Repr

/-- Modelled from the spec: `data.h` is not among the sources.  The registry
`AppState`, with the six fields that `app_state_init` assigns.  `windows` holds
the entries of the C array at the indices `0 .. count - 1`. -/
structure AppState where
  windows : List WindowInfo
  count : Int
  capacity : Int
  selected_index : Int
  width : Nat
  height : Nat
  deriving DecidableEq, Repr

/-- `#define INITIAL_CAPACITY 32`. -/
def INITIAL_CAPACITY : Int := 32

/-- `app_state_init`: every field is overwritten. -/
def app_state_init (_state : AppState) : AppState :=
  { windows := [], count := 0, capacity := 0, selected_index := 0, width := 200, height := 100 }

/-- The assignment `state->windows[state->count++] = *info`: the entries below
`count` stay, entry `count` becomes `info`. -/
def app_state_store (state : AppState) (info : WindowInfo) : AppState :=
  { state with
    windows := state.windows.take state.count.toNat ++ [info]
    count := state.count + 1 }

/-- `app_state_add`.  `realloc_ok` is the outcome of the `realloc` call, which
is consulted only when the array has to grow.  The second component is the
returned `int`. -/
def app_state_add (state : AppState) (info : WindowInfo) (realloc_ok : Bool) : AppState × Int :=
  if state.count ≥ state.capacity then
    let new_cap := if state.capacity = 0 then INITIAL_CAPACITY else state.capacity * 2
    if realloc_ok then
      (app_state_store { state with capacity := new_cap } info, 0)
    else
      (state, -1)
  else
    (app_state_store state info, 0)

/-- `app_state_free` (the pointer is never `NULL` at its call sites):
`selected_index`, `width` and `height` are left alone. -/
def app_state_free (state : AppState) : AppState :=
  { state with windows := [], count := 0, capacity := 0 }

/-- The C expression `a[i]` for an `int` index: defined only inside the
array. -/
def array_at {α : Type} (a : List α) (i : Int) : Option α :=
  if i < 0 then none else a.get? i.toNat

/-! ## `socket.h`: the command tokens -/

def CMD_NEXT : String := "NEXT"
def CMD_PREV : String := "PREV"
def CMD_SELECT : String := "SELECT"
def CMD_TOGGLE : String := "TOGGLE"
def CMD_HIDE : String := "HIDE"
def CMD_QUIT : String := "QUIT"

/-! ## `main.c`: the switcher state and the command dispatcher -/

/-- The globals of `main.c` that the command dispatcher reads or writes.
`follow_monitor` is the value of `config && config->follow_monitor`;
`surface`, `layer_surface` and `backend` say whether the pointer of that name
is non-`NULL`. -/
structure Daemon where
  running : Bool
  visible : Bool
  should_quit : Int
  app_state : AppState
  follow_monitor : Bool
  surface : Bool
  layer_surface : Bool
  backend : Bool
  deriving DecidableEq

/-- What the collaborators answer during one call of `handle_command`:
`get_windows` is the function behind `backend->get_windows` (it receives the
registry and returns its `int` result with the registry it leaves),
`calculate_dimensions` is the renderer's size computation, which reads the
registry and writes the two sizes only, and the two flags say whether
`wl_compositor_create_surface` and `zwlr_layer_shell_v1_get_layer_surface`
return a non-`NULL` object.  `backend.h` and the renderer are not among the
sources, which is why their behaviour is a parameter. -/
structure Env where
  get_windows : AppState → Int × AppState
  calculate_dimensions : AppState → Nat × Nat
  create_surface : Bool
  get_layer_surface : Bool

/-- A call into the backend or the renderer.  `render_ui` draws the registry
and does not change it. -/
inductive Call where
  | get_name
  | get_windows
  | activate_window (address : Option String)
  | calculate_dimensions
  | render_ui
  deriving DecidableEq, Repr

/-- The state in which `run_daemon` enters its loop: registry initialised,
switcher hidden, backend and overlay surface created. -/
def initial_daemon (follow_monitor : Bool) : Daemon :=
  { running := true
    visible := false
    should_quit := 0
    app_state := app_state_init
      { windows := [], count := 0, capacity := 0, selected_index := 0, width := 0, height := 0 }
    follow_monitor := follow_monitor
    surface := true
    layer_surface := true
    backend := true }

/-- `destroy_panel`. -/
def destroy_panel (d : Daemon) : Daemon :=
  { d with layer_surface := false, surface := false, visible := false }

/-- `create_panel`. -/
def create_panel (env : Env) (d : Daemon) : Daemon :=
  if d.surface then d
  else if !env.create_surface then { d with surface := false }
  else if !env.get_layer_surface then { d with layer_surface := false, surface := false }
  else { d with surface := true, layer_surface := true }

/-- `hide_switcher`. -/
def hide_switcher (d : Daemon) : Daemon :=
  if !d.visible then d
  else
    let d1 := { d with visible := false }
    if d1.follow_monitor then destroy_panel d1 else d1

/-- The part of `show_switcher` after the panel checks (lines 224-248):
rebuild the registry through the backend, place the selection, size the
overlay and mark the switcher visible. -/
def show_switcher_rebuild (env : Env) (d : Daemon) : Daemon × List Call :=
  let d1 := { d with app_state := app_state_init (app_state_free d.app_state) }
  if !d1.backend then (d1, [])
  else
    let r := env.get_windows d1.app_state
    let d2 := { d1 with app_state := r.2 }
    if r.1 < 0 then (d2, [Call.get_windows])
    else
      let d3 := { d2 with
        app_state := { d2.app_state with
          selected_index := if d2.app_state.count > 1 then 1 else 0 } }
      let dims := env.calculate_dimensions d3.app_state
      let d4 := { d3 with app_state := { d3.app_state with width := dims.1, height := dims.2 } }
      ({ d4 with visible := true }, [Call.get_windows, Call.calculate_dimensions])

/-- `show_switcher`. -/
def show_switcher (env : Env) (d : Daemon) : Daemon × List Call :=
  if d.follow_monitor && !d.surface then
    let d1 := create_panel env d
    if !d1.surface then (d1, []) else show_switcher_rebuild env d1
  else if d.visible then (d, [])
  else show_switcher_rebuild env d

/-- `select_and_hide`. -/
def select_and_hide (d : Daemon) : Daemon × List Call :=
  let calls :=
    if d.visible && decide (d.app_state.count > 0) && d.backend then
      [Call.get_name,
       Call.activate_window
         ((array_at d.app_state.windows d.app_state.selected_index).map (fun win => win.address))]
    else []
  (hide_switcher d, calls)

/-- The local `dir` of `handle_command` (lines 283-287). -/
def direction (cmd : String) : Int :=
  if cmd = CMD_NEXT then 1 else if cmd = CMD_PREV then -1 else 0

/-- `handle_command`. -/
def handle_command (env : Env) (d : Daemon) (cmd : String) : Daemon × List Call :=
  if cmd = CMD_QUIT then ({ d with should_quit := 1 }, [])
  else if cmd = CMD_HIDE then (hide_switcher d, [])
  else if cmd = CMD_TOGGLE then
    if d.visible then (hide_switcher d, []) else show_switcher env d
  else if !d.visible then show_switcher env d
  else
    let dir : Int := direction cmd
    if dir ≠ 0 ∧ d.app_state.count > 0 then
      ({ d with
          app_state := { d.app_state with
            selected_index :=
              Int.tmod (d.app_state.selected_index + dir + d.app_state.count)
                d.app_state.count } },
       [Call.render_ui])
    else if cmd = CMD_SELECT then select_and_hide d
    else (d, [])

/-- The command loop of `run_daemon` (lines 474-497): the commands read from
the control socket are handled one after the other, each with the answers the
collaborators give at that moment. -/
def run_commands : Daemon → List (Env × String) → Daemon
  | d, [] => d
  | d, (env, cmd) :: rest => run_commands (handle_command env d cmd).1 rest

/-! ## `wlr_backend.c`: the protocol-listener backend -/

/-- Modelled from the spec: the generated protocol header is not among the
sources.  The code of the `minimized` entry of a toplevel's state array, as
the wlr-foreign-toplevel-management protocol numbers it. -/
def ZWLR_FOREIGN_TOPLEVEL_HANDLE_V1_STATE_MINIMIZED : Nat := 1

/-- Modelled from the spec: the generated protocol header is not among the
sources.  The code of the `activated` entry of a toplevel's state array, as
the wlr-foreign-toplevel-management protocol numbers it. -/
def ZWLR_FOREIGN_TOPLEVEL_HANDLE_V1_STATE_ACTIVATED : Nat := 2

/-- `struct WindowNode`.  The `next` pointer is the list structure itself;
`addr` is the address of the node, which is what the C code compares when it
looks for a node (`curr == window`). -/
structure WindowNode where
  addr : Nat
  handle : Nat
  title : Option String
  app_id : Option String
  identifier : Option String
  state : Nat
  is_active : Int
  is_minimized : Int
  deriving DecidableEq, Repr

/-- `WlrBackendState`; `windows` is the linked list that starts at the
`windows` pointer. -/
structure WlrBackendState where
  display : Nat
  registry : Nat
  manager : Nat
  seat : Nat
  windows : List WindowNode
  window_count : Int
  initialized : Int
  needs_refresh : Int
  deriving DecidableEq, Repr

/-- `static WlrBackendState backend_state = {0}`. -/
def backend_state_zero : WlrBackendState :=
  { display := 0, registry := 0, manager := 0, seat := 0, windows := [],
    window_count := 0, initialized := 0, needs_refresh := 0 }

/-- The unlink loop of `move_window_to_front` (lines 51-61): the first node
whose address is `window` is taken out of the list. -/
def unlink (window : Nat) : List WindowNode → List WindowNode
  | [] => []
  | curr :: rest => if curr.addr = window then rest else curr :: unlink window rest

/-- `move_window_to_front`.  `window` is the node the pointer designates
(`none` for a `NULL` pointer). -/
def move_window_to_front (st : WlrBackendState) (window : Option WindowNode) :
    WlrBackendState :=
  match window, st.windows with
  | none, _ => st
  | some _, [] => st
  | some w, head :: _ =>
    if w.addr = head.addr then st
    else { st with windows := w :: unlink w.addr st.windows }

/-- The loop of `toplevel_handle_state` over the state array (lines
152-160). -/
def apply_states (window : WindowNode) : List Nat → WindowNode
  | [] => window
  | s :: rest =>
    let w1 := { window with state := window.state ||| (1 <<< s) }
    let w2 :=
      if s = ZWLR_FOREIGN_TOPLEVEL_HANDLE_V1_STATE_ACTIVATED then { w1 with is_active := 1 }
      else w1
    let w3 :=
      if s = ZWLR_FOREIGN_TOPLEVEL_HANDLE_V1_STATE_MINIMIZED then { w2 with is_minimized := 1 }
      else w2
    apply_states w3 rest

/-- Writing through a node pointer: the node of the list at the address of
`window` takes the contents of `window`. -/
def store_node (window : WindowNode) : List WindowNode → List WindowNode
  | [] => []
  | curr :: rest =>
    if curr.addr = window.addr then window :: rest else curr :: store_node window rest

/-- `toplevel_handle_state` for the node at address `window`, with the state
array `wl_state`.  The callback dereferences its node pointer, so the result
is `none` when no node of the list lives at that address. -/
def toplevel_handle_state (st : WlrBackendState) (window : Nat) (wl_state : List Nat) :
    Option WlrBackendState :=
  match st.windows.find? (fun n => decide (n.addr = window)) with
  | none => none
  | some w0 =>
    let w := apply_states { w0 with state := 0, is_active := 0, is_minimized := 0 } wl_state
    let st1 := { st with windows := store_node w st.windows }
    if w.is_active ≠ 0 then some (move_window_to_front st1 (some w)) else some st1

/-- The unlink loop of `toplevel_handle_closed` (lines 182-193), which also
decrements `window_count` when it finds the node. -/
def closed_unlink (window : Nat) (window_count : Int) :
    List WindowNode → List WindowNode × Int
  | [] => ([], window_count)
  | curr :: rest =>
    if curr.addr = window then (rest, window_count - 1)
    else
      let r := closed_unlink window window_count rest
      (curr :: r.1, r.2)

/-- `toplevel_handle_closed` for the node at address `window`. -/
def toplevel_handle_closed (st : WlrBackendState) (window : Nat) : WlrBackendState :=
  let r := closed_unlink window st.window_count st.windows
  { st with windows := r.1, window_count := r.2, needs_refresh := 1 }

/-- `manager_handle_toplevel` for the new handle `toplevel`.  `node` is the
address `malloc` returns for the node (`0` when it fails) and `identifier` is
the buffer filled by `snprintf (..., "wlr-%p", toplevel)` (`none` when its
`malloc` fails). -/
def manager_handle_toplevel (st : WlrBackendState) (toplevel : Nat) (node : Nat)
    (identifier : Option String) : WlrBackendState :=
  if node = 0 then st
  else
    let window : WindowNode :=
      { addr := node, handle := toplevel, title := none, app_id := none,
        identifier := identifier, state := 0, is_active := 0, is_minimized := 0 }
    { st with windows := window :: st.windows, window_count := st.window_count + 1 }

/-- The `WindowInfo` that `wlr_get_windows` builds for a node (lines
392-399). -/
def window_info_of_node (curr : WindowNode) : WindowInfo :=
  { address := curr.identifier.getD ""
    title := curr.title.getD "Untitled"
    class_name := curr.app_id.getD "unknown"
    workspace_id := 0
    is_active := decide (curr.is_active ≠ 0)
    is_floating := false
    group_count := 1 }

/-- The loop of `wlr_get_windows` (lines 384-408).  `alloc index` is the
outcome of the `realloc` inside the `app_state_add` call made when the local
counter has the value `index`; a failed call is logged and skipped. -/
def get_windows_loop (alloc : Nat → Bool) : List WindowNode → Nat → AppState → AppState
  | [], _, state => state
  | curr :: rest, index, state =>
    if curr.is_minimized ≠ 0 then get_windows_loop alloc rest index state
    else
      let r := app_state_add state (window_info_of_node curr) (alloc index)
      get_windows_loop alloc rest (index + 1) r.1

/-- `wlr_get_windows`: the returned `int` and the registry it leaves. -/
def wlr_get_windows (bs : WlrBackendState) (alloc : Nat → Bool) (state : AppState) :
    Int × AppState :=
  if bs.initialized = 0 then (-1, state)
  else
    let state1 := app_state_init (app_state_free state)
    if bs.window_count = 0 then (0, state1)
    else (0, get_windows_loop alloc bs.windows 0 state1)

/-- What a call of `wlr_activate_window` did: it returned at once (backend
not initialised or `NULL` identifier), it found no node, or it found one and
sent the activation request for `request` (`none` when no request was
sent). -/
inductive ActivateOutcome where
  | rejected
  | not_found
  | matched (request : Option Nat)
  deriving DecidableEq, Repr

/-- The scan of `wlr_activate_window` (lines 419-438) from the node list
`nodes` on. -/
def activate_scan (bs : WlrBackendState) (identifier : String) :
    List WindowNode → WlrBackendState × ActivateOutcome
  | [] => (bs, ActivateOutcome.not_found)
  | curr :: rest =>
    if curr.identifier = some identifier then
      (move_window_to_front bs (some curr),
       ActivateOutcome.matched
         (if curr.handle ≠ 0 ∧ bs.seat ≠ 0 then some curr.handle else none))
    else activate_scan bs identifier rest

/-- `wlr_activate_window`. -/
def wlr_activate_window (bs : WlrBackendState) (identifier : Option String) :
    WlrBackendState × ActivateOutcome :=
  match identifier with
  | none => (bs, ActivateOutcome.rejected)
  | some ident =>
    if bs.initialized = 0 then (bs, ActivateOutcome.rejected)
    else activate_scan bs ident bs.windows

/-- The environment of a `show` whose backend is the protocol-listener
backend in the state `bs`. -/
def wlr_env (bs : WlrBackendState) (alloc : Nat → Bool) (dims : Nat × Nat) : Env :=
  { get_windows := wlr_get_windows bs alloc
    calculate_dimensions := fun _ => dims
    create_surface := true
    get_layer_surface := true }

/-- The backend states after each of the four compositor events "window A
appears, A's state becomes `wl_state`, window B appears, A closes", from the
state `st0` on.  `hA`, `hB` are the handles, `a`, `b` the addresses `malloc`
returns for the nodes, `idA`, `idB` their identifier buffers. -/
def appear_state_appear_close (st0 : WlrBackendState) (hA a : Nat) (idA : Option String)
    (wl_state : List Nat) (hB b : Nat) (idB : Option String) :
    Option (WlrBackendState × WlrBackendState × WlrBackendState × WlrBackendState) :=
  let st1 := manager_handle_toplevel st0 hA a idA
  match toplevel_handle_state st1 a wl_state with
  | none => none
  | some st2 =>
    let st3 := manager_handle_toplevel st2 hB b idB
    some (st1, st2, st3, toplevel_handle_closed st3 a)

/-! ## Sample values -/

/-- A backend with three windows, most recent first: an active terminal, a
minimized editor and a window that has sent neither title nor app id yet. -/
def sample_backend : WlrBackendState :=
  { backend_state_zero with
    seat := 7
    initialized := 1
    window_count := 3
    windows :=
      [{ addr := 300, handle := 30, title := some "term", app_id := some "foot",
         identifier := some "wlr-0x1e", state := 4, is_active := 1, is_minimized := 0 },
       { addr := 200, handle := 20, title := some "notes", app_id := some "emacs",
         identifier := some "wlr-0x14", state := 2, is_active := 0, is_minimized := 1 },
       { addr := 100, handle := 10, title := none, app_id := none,
         identifier := some "wlr-0xa", state := 0, is_active := 0, is_minimized := 0 }] }

/-- The collaborators' answers when the backend is `sample_backend` and every
allocation succeeds. -/
def sample_env : Env := wlr_env sample_backend (fun _ => true) (640, 120)

/-- The collaborators' answers when the backend is `sample_backend` and no
`realloc` succeeds. -/
def failing_alloc_env : Env := wlr_env sample_backend (fun _ => false) (640, 120)

/-- The collaborators' answers when the backend tracks no window. -/
def empty_env : Env :=
  wlr_env { backend_state_zero with initialized := 1 } (fun _ => true) (200, 100)

/-- The collaborators' answers when the backend is `sample_backend` and the
compositor refuses to create a surface. -/
def no_surface_env : Env := { sample_env with create_surface := false }

/-- A hidden switcher in follow-monitor mode whose panel the last hide
destroyed: the state after a TOGGLE and a HIDE. -/
def hidden_without_panel : Daemon :=
  run_commands (initial_daemon true) [(sample_env, CMD_TOGGLE), (sample_env, CMD_HIDE)]

/-- A backend enumeration that only fills the registry: started on a
registry whose selection is the `0` that `app_state_init` wrote, it leaves the
selection at `0`.  `wlr_get_windows` is such an enumeration. -/
def KeepsSelection (get_windows : AppState → Int × AppState) : Prop :=
  ∀ s : AppState, s.selected_index = 0 → (get_windows s).2.selected_index = 0

/-- The registry invariant: when the registry is non-empty the selection is
an index into it. -/
def SelectionInRange (s : AppState) : Prop :=
  0 < s.count → 0 ≤ s.selected_index ∧ s.selected_index < s.count

/-! ## Sequences of registry appends and of backend events -/

/-- A run of `app_state_add` calls, one per entry of `calls` (the window to
append and the outcome of the `realloc`, should the call need it): the
registry it leaves and the value each call returned. -/
def app_state_add_all : AppState → List (WindowInfo × Bool) → AppState × List Int
  | state, [] => (state, [])
  | state, (info, realloc_ok) :: rest =>
    let r := app_state_add state info realloc_ok
    let t := app_state_add_all r.1 rest
    (t.1, r.2 :: t.2)

/-- What the protocol-listener backend is asked to handle: a new toplevel
(`manager_handle_toplevel`, with the address `malloc` gives the node and the
identifier buffer), a state notification or a closed notification for the
node at an address, or a call of `wlr_activate_window`. -/
inductive BackendEvent where
  | toplevel (toplevel : Nat) (node : Nat) (identifier : Option String)
  | state (window : Nat) (wl_state : List Nat)
  | closed (window : Nat)
  | activate (identifier : Option String)
  deriving DecidableEq, Repr

/-- Whether an event is applied to a node currently in the list: the node
pointer of a state or closed notification must be the address of a node of the
list. -/
def event_on_live_node (st : WlrBackendState) : BackendEvent → Bool
  | BackendEvent.state window _ => st.windows.any (fun n => decide (n.addr = window))
  | BackendEvent.closed window => st.windows.any (fun n => decide (n.addr = window))
  | _ => true

/-- One event handled by the backend; `none` when a notification names a node
that is not in the list. -/
def backend_step (st : WlrBackendState) (e : BackendEvent) : Option WlrBackendState :=
  if event_on_live_node st e then
    match e with
    | BackendEvent.toplevel toplevel node identifier =>
      some (manager_handle_toplevel st toplevel node identifier)
    | BackendEvent.state window wl_state => toplevel_handle_state st window wl_state
    | BackendEvent.closed window => some (toplevel_handle_closed st window)
    | BackendEvent.activate identifier => some (wlr_activate_window st identifier).1
  else none

/-- The backend states after each event of a sequence, in order. -/
def backend_run : WlrBackendState → List BackendEvent → Option (List WlrBackendState)
  | _, [] => some []
  | st, e :: rest =>
    match backend_step st e with
    | none => none
    | some st1 =>
      match backend_run st1 rest with
      | none => none
      | some states => some (st1 :: states)

/-- Whether every event of a sequence is applied to a node that is in the
list at the moment the event is handled. -/
def events_on_live_nodes : WlrBackendState → List BackendEvent → Bool
  | _, [] => true
  | st, e :: rest =>
    event_on_live_node st e &&
      match backend_step st e with
      | some st1 => events_on_live_nodes st1 rest
      | none => false

/-- A sample event sequence: two windows appear, the older one is activated by
the compositor, the switcher activates the newer one, which then closes. -/
def sample_events : List BackendEvent :=
  [BackendEvent.toplevel 10 100 (some "wlr-0xa"),
   BackendEvent.toplevel 20 200 (some "wlr-0x14"),
   BackendEvent.state 100 [2],
   BackendEvent.activate (some "wlr-0x14"),
   BackendEvent.closed 200]

/-! ## `main.c`: one iteration of the loop of `run_daemon` -/

/-- Modelled from the spec: `poll.h` is a system header, not among the
sources.  The `POLLIN` bit, with its Linux value. -/
def POLLIN : Nat := 1

/-- Modelled from the spec: `poll.h` is a system header, not among the
sources.  The `POLLERR` bit, with its Linux value. -/
def POLLERR : Nat := 8

/-- Modelled from the spec: `poll.h` is a system header, not among the
sources.  The `POLLHUP` bit, with its Linux value. -/
def POLLHUP : Nat := 16

/-- Modelled from the spec: `errno.h` is a system header, not among the
sources.  The error number of an interrupted system call, with its Linux
value. -/
def EINTR : Int := 4

/-- What `poll (fds, 2, 100)` did: its return value, `errno` after it, and
the `revents` of the compositor descriptor (`fds[0]`) and of the control
socket (`fds[1]`). -/
structure PollOutcome where
  ret : Int
  errno : Int
  revents0 : Nat
  revents1 : Nat
  deriving DecidableEq, Repr

/-- What the library calls of one loop iteration return: the
`wl_display_prepare_read`, the `wl_display_dispatch_pending` made when the
prepare fails, the `poll`, the `wl_display_read_events` and the
`wl_display_dispatch_pending` made after a read. -/
structure IterationInput where
  prepare_ret : Int
  pending_ret : Int
  wait : PollOutcome
  read_ret : Int
  dispatch_ret : Int
  deriving DecidableEq, Repr

/-- A call on the compositor connection made by the loop itself. -/
inductive DisplayCall where
  | prepare_read (ret : Int)
  | dispatch_pending
  | flush
  | poll
  | cancel_read
  | read_events
  deriving DecidableEq, Repr

/-- How the compositor part of an iteration (lines 425-471) ends: `break`
leaves the loop, `continue` goes straight back to the loop test, and falling
through handles the socket commands (lines 473-498) and then reaches the loop
test. -/
inductive LoopControl where
  | leave
  | continue_loop
  | fall_through
  deriving DecidableEq, Repr

/-- The compositor part of one iteration of the loop of `run_daemon` (lines
425-471): the calls it makes on the connection, in order, and how it ends. -/
def reactor_iteration (i : IterationInput) : List DisplayCall × LoopControl :=
  if i.prepare_ret ≠ 0 then
    if i.pending_ret = -1 then
      ([DisplayCall.prepare_read i.prepare_ret, DisplayCall.dispatch_pending], LoopControl.leave)
    else
      ([DisplayCall.prepare_read i.prepare_ret, DisplayCall.dispatch_pending],
       LoopControl.fall_through)
  else if i.wait.ret < 0 then
    if i.wait.errno = EINTR then
      ([DisplayCall.prepare_read i.prepare_ret, DisplayCall.flush, DisplayCall.poll,
        DisplayCall.cancel_read], LoopControl.continue_loop)
    else
      ([DisplayCall.prepare_read i.prepare_ret, DisplayCall.flush, DisplayCall.poll],
       LoopControl.leave)
  else if i.wait.revents0 &&& (POLLERR ||| POLLHUP) ≠ 0 then
    ([DisplayCall.prepare_read i.prepare_ret, DisplayCall.flush, DisplayCall.poll,
      DisplayCall.cancel_read], LoopControl.leave)
  else if i.wait.revents0 &&& POLLIN ≠ 0 then
    if i.read_ret = -1 then
      ([DisplayCall.prepare_read i.prepare_ret, DisplayCall.flush, DisplayCall.poll,
        DisplayCall.read_events], LoopControl.leave)
    else if i.dispatch_ret = -1 then
      ([DisplayCall.prepare_read i.prepare_ret, DisplayCall.flush, DisplayCall.poll,
        DisplayCall.read_events, DisplayCall.dispatch_pending], LoopControl.leave)
    else
      ([DisplayCall.prepare_read i.prepare_ret, DisplayCall.flush, DisplayCall.poll,
        DisplayCall.read_events, DisplayCall.dispatch_pending], LoopControl.fall_through)
  else
    ([DisplayCall.prepare_read i.prepare_ret, DisplayCall.flush, DisplayCall.poll,
      DisplayCall.cancel_read], LoopControl.fall_through)

/-- Whether a prepared read is armed after a sequence of calls: a
`wl_display_prepare_read` that returns `0` arms it, `wl_display_read_events`
and `wl_display_cancel_read` disarm it. -/
def armed_after : Bool → List DisplayCall → Bool
  | armed, [] => armed
  | armed, DisplayCall.prepare_read ret :: rest =>
    armed_after (if ret = 0 then true else armed) rest
  | _, DisplayCall.read_events :: rest => armed_after false rest
  | _, DisplayCall.cancel_read :: rest => armed_after false rest
  | armed, _ :: rest => armed_after armed rest

/-- The sample wait outcomes of the loop: a timeout, an interrupted wait,
readiness of the compositor descriptor, readiness of the control socket only,
and a hangup. -/
def sample_waits : List PollOutcome :=
  [{ ret := 0, errno := 0, revents0 := 0, revents1 := 0 },
   { ret := -1, errno := 4, revents0 := 0, revents1 := 0 },
   { ret := 1, errno := 0, revents0 := 1, revents1 := 0 },
   { ret := 1, errno := 0, revents0 := 0, revents1 := 1 },
   { ret := 1, errno := 0, revents0 := 16, revents1 := 0 }]

/-- A registry left by an earlier show. -/
def sample_env_registry : AppState :=
  (handle_command sample_env (initial_daemon false) CMD_TOGGLE).1.app_state

/-- The first node of `sample_backend`. -/
def sample_term : WindowNode :=
  { addr := 300, handle := 30, title := some "term", app_id := some "foot",
    identifier := some "wlr-0x1e", state := 4, is_active := 1, is_minimized := 0 }

/-- The second node of `sample_backend`, which is minimized. -/
def sample_notes : WindowNode :=
  { addr := 200, handle := 20, title := some "notes", app_id := some "emacs",
    identifier := some "wlr-0x14", state := 2, is_active := 0, is_minimized := 1 }

/-- The third node of `sample_backend`. -/
def sample_untitled : WindowNode :=
  { addr := 100, handle := 10, title := none, app_id := none,
    identifier := some "wlr-0xa", state := 0, is_active := 0, is_minimized := 0 }

/-- Three appends: the first has to allocate and its `realloc` succeeds, the
other two fit the capacity and never ask. -/
def sample_calls : List (WindowInfo × Bool) :=
  [(window_info_of_node sample_term, true), (window_info_of_node sample_notes, false),
   (window_info_of_node sample_untitled, false)]

/-- The shape of a registry built by `app_state_add`: `count` entries are
stored, they fit the capacity, the capacity is `0` or `32` doubled some number
of times, and it was doubled only when the entries no longer fitted. -/
def RegistryShape (s : AppState) : Prop :=
  s.count = s.windows.length ∧ s.count ≤ s.capacity ∧
  (s.capacity = 0 ∨ ∃ k : Nat, s.capacity = 32 * 2 ^ k) ∧
  (s.capacity ≤ 32 ∨ s.capacity < 2 * s.count)

/-- The nodes that `wlr_get_windows` does not skip. -/
def shown_nodes (nodes : List WindowNode) : List WindowNode :=
  nodes.filter (fun n => decide (n.is_minimized = 0))

/-! ## Arithmetic of the selection step -/

theorem advance_in_range (s c dir : Int) (hc : 0 < c) (h0 : 0 ≤ s) (_h1 : s < c)
    (hdir : dir = 1 ∨ dir = -1) :
    0 ≤ Int.tmod (s + dir + c) c ∧ Int.tmod (s + dir + c) c < c := by
  have hnn : 0 ≤ s + dir + c := by rcases hdir with h | h <;> omega
  rw [Int.tmod_eq_emod hnn (le_of_lt hc)]
  exact ⟨Int.emod_nonneg _ (ne_of_gt hc), Int.emod_lt_of_pos _ hc⟩

theorem advance_next_prev (s c : Int) (hc : 0 < c) (h0 : 0 ≤ s) (h1 : s < c) :
    Int.tmod (Int.tmod (s + 1 + c) c + -1 + c) c = s := by
  have hnn : 0 ≤ s + 1 + c := by omega
  rw [Int.tmod_eq_emod hnn (le_of_lt hc), Int.add_emod_self]
  by_cases hlt : s + 1 < c
  · rw [Int.emod_eq_of_lt (by omega) hlt]
    have h2 : 0 ≤ s + 1 + -1 + c := by omega
    rw [Int.tmod_eq_emod h2 (le_of_lt hc), Int.add_emod_self]
    have h3 : s + 1 + -1 = s := by omega
    rw [h3]
    exact Int.emod_eq_of_lt h0 h1
  · have hs : s + 1 = c := by omega
    rw [hs, Int.emod_self]
    have h2 : 0 ≤ 0 + -1 + c := by omega
    rw [Int.tmod_eq_emod h2 (le_of_lt hc), Int.add_emod_self]
    have h3 : (0 : Int) + -1 = -1 := by omega
    rw [h3]
    have h4 : (-1 : Int) % c = (c - 1) % c := by
      have h5 : (c - 1 : Int) = -1 + c := by omega
      rw [h5, Int.add_emod_self]
    rw [h4, Int.emod_eq_of_lt (by omega) (by omega)]
    omega

/-! ## The command dispatcher -/

theorem hide_switcher_app_state (d : Daemon) :
    (hide_switcher d).app_state = d.app_state := by
  cases hv : d.visible <;> cases hf : d.follow_monitor <;>
    simp [hide_switcher, destroy_panel, hv, hf]

theorem hide_switcher_hidden (d : Daemon) : (hide_switcher d).visible = false := by
  cases hv : d.visible <;> cases hf : d.follow_monitor <;>
    simp [hide_switcher, destroy_panel, hv, hf]

theorem create_panel_app_state (env : Env) (d : Daemon) :
    (create_panel env d).app_state = d.app_state := by
  cases hs : d.surface <;> cases hc : env.create_surface <;> cases hl : env.get_layer_surface <;>
    simp [create_panel, hs, hc, hl]

theorem show_switcher_rebuild_in_range (env : Env) (d : Daemon)
    (hk : KeepsSelection env.get_windows) :
    SelectionInRange (show_switcher_rebuild env d).1.app_state := by
  have h0 := hk (app_state_init (app_state_free d.app_state)) rfl
  cases hb : d.backend
  · intro h
    simp [show_switcher_rebuild, hb, app_state_init] at h
  · by_cases hr : (env.get_windows (app_state_init (app_state_free d.app_state))).1 < 0
    · intro h
      simp only [show_switcher_rebuild, hb, hr, Bool.not_true, Bool.false_eq_true, if_false,
        if_true] at h ⊢
      rw [h0]
      exact ⟨le_refl 0, h⟩
    · intro h
      simp only [show_switcher_rebuild, hb, hr, Bool.not_true, Bool.false_eq_true, if_false]
        at h ⊢
      split <;> omega

theorem show_switcher_in_range (env : Env) (d : Daemon)
    (hk : KeepsSelection env.get_windows) (hd : SelectionInRange d.app_state) :
    SelectionInRange (show_switcher env d).1.app_state := by
  by_cases h1 : (d.follow_monitor && !d.surface) = true
  · by_cases h2 : (!(create_panel env d).surface) = true
    · simpa [show_switcher, h1, h2, create_panel_app_state] using hd
    · simp only [show_switcher, h1, h2, if_true, if_false]
      exact show_switcher_rebuild_in_range env _ hk
  · by_cases h2 : d.visible = true
    · simpa [show_switcher, h1, h2] using hd
    · simp only [show_switcher, h1, h2, if_false]
      exact show_switcher_rebuild_in_range env _ hk

theorem select_and_hide_app_state (d : Daemon) :
    (select_and_hide d).1.app_state = d.app_state := by
  simp [select_and_hide, hide_switcher_app_state]

theorem direction_cases (cmd : String) (h : direction cmd ≠ 0) :
    direction cmd = 1 ∨ direction cmd = -1 := by
  unfold direction at h ⊢
  by_cases hn : cmd = CMD_NEXT
  · simp [hn]
  · by_cases hp : cmd = CMD_PREV
    · rw [if_neg hn, if_pos hp]; simp
    · simp [hn, hp] at h

theorem handle_command_quit (env : Env) (d : Daemon) :
    handle_command env d CMD_QUIT = ({ d with should_quit := 1 }, []) := by
  simp [handle_command]

theorem handle_command_hide (env : Env) (d : Daemon) :
    handle_command env d CMD_HIDE = (hide_switcher d, []) := by
  simp [handle_command, CMD_HIDE, CMD_QUIT]

theorem handle_command_toggle (env : Env) (d : Daemon) :
    handle_command env d CMD_TOGGLE =
      if d.visible then (hide_switcher d, []) else show_switcher env d := by
  simp [handle_command, CMD_HIDE, CMD_QUIT, CMD_TOGGLE]

theorem handle_command_hidden (env : Env) (d : Daemon) (cmd : String)
    (hq : cmd ≠ CMD_QUIT) (hh : cmd ≠ CMD_HIDE) (hv : d.visible = false) :
    handle_command env d cmd = show_switcher env d := by
  by_cases ht : cmd = CMD_TOGGLE
  · rw [ht, handle_command_toggle]; simp [hv]
  · simp [handle_command, hq, hh, ht, hv]

theorem handle_command_visible (env : Env) (d : Daemon) (cmd : String)
    (hq : cmd ≠ CMD_QUIT) (hh : cmd ≠ CMD_HIDE) (ht : cmd ≠ CMD_TOGGLE)
    (hv : d.visible = true) :
    handle_command env d cmd =
      if direction cmd ≠ 0 ∧ d.app_state.count > 0 then
        ({ d with
            app_state := { d.app_state with
              selected_index :=
                Int.tmod (d.app_state.selected_index + direction cmd + d.app_state.count)
                  d.app_state.count } },
         [Call.render_ui])
      else if cmd = CMD_SELECT then select_and_hide d
      else (d, []) := by
  simp only [handle_command, hq, hh, ht, hv, if_false, Bool.not_true, Bool.false_eq_true]

theorem handle_command_in_range (env : Env) (d : Daemon) (cmd : String)
    (hk : KeepsSelection env.get_windows) (hd : SelectionInRange d.app_state) :
    SelectionInRange (handle_command env d cmd).1.app_state := by
  by_cases hq : cmd = CMD_QUIT
  · rw [hq, handle_command_quit]; exact hd
  by_cases hh : cmd = CMD_HIDE
  · rw [hh, handle_command_hide]; simpa [hide_switcher_app_state] using hd
  cases hv : d.visible
  · rw [handle_command_hidden env d cmd hq hh hv]
    exact show_switcher_in_range env d hk hd
  by_cases ht : cmd = CMD_TOGGLE
  · rw [ht, handle_command_toggle]; simpa [hv, hide_switcher_app_state] using hd
  rw [handle_command_visible env d cmd hq hh ht hv]
  split
  · next hnav =>
    obtain ⟨hdir, hcount⟩ := hnav
    intro _
    obtain ⟨h0, h1⟩ := hd hcount
    exact advance_in_range _ _ _ hcount h0 h1 (direction_cases cmd hdir)
  · split
    · simpa [select_and_hide_app_state] using hd
    · exact hd

theorem run_commands_in_range (steps : List (Env × String)) :
    ∀ d : Daemon, (∀ step ∈ steps, KeepsSelection step.1.get_windows) →
      SelectionInRange d.app_state → SelectionInRange (run_commands d steps).app_state := by
  induction steps with
  | nil => intro d _ hd; exact hd
  | cons step rest ih =>
    intro d hk hd
    obtain ⟨env, cmd⟩ := step
    simp only [run_commands]
    apply ih
    · intro s hs
      exact hk s (List.mem_cons_of_mem _ hs)
    · exact handle_command_in_range env d cmd (hk (env, cmd) (List.mem_cons_self _ _)) hd

theorem app_state_add_selected_index (s : AppState) (info : WindowInfo) (ok : Bool) :
    (app_state_add s info ok).1.selected_index = s.selected_index := by
  unfold app_state_add app_state_store
  split
  · cases ok <;> rfl
  · rfl

theorem get_windows_loop_selected_index (alloc : Nat → Bool) (nodes : List WindowNode) :
    ∀ (index : Nat) (s : AppState),
      (get_windows_loop alloc nodes index s).selected_index = s.selected_index := by
  induction nodes with
  | nil => intro index s; rfl
  | cons curr rest ih =>
    intro index s
    simp only [get_windows_loop]
    split
    · exact ih index s
    · rw [ih, app_state_add_selected_index]

theorem wlr_get_windows_keeps_selection (bs : WlrBackendState) (alloc : Nat → Bool) :
    KeepsSelection (wlr_get_windows bs alloc) := by
  intro s hs
  unfold wlr_get_windows
  split
  · exact hs
  · simp only
    split
    · rfl
    · rw [get_windows_loop_selected_index]; rfl

theorem show_switcher_when_enumerated (env : Env) (d : Daemon) (hv : d.visible = false)
    (hb : d.backend = true)
    (hp : d.follow_monitor = false ∨ d.surface = true ∨
      (env.create_surface = true ∧ env.get_layer_surface = true))
    (hr : 0 ≤ (env.get_windows (app_state_init d.app_state)).1) :
    (show_switcher env d).1.visible = true ∧
    (show_switcher env d).1.app_state.windows
      = (env.get_windows (app_state_init d.app_state)).2.windows ∧
    (show_switcher env d).1.app_state.count
      = (env.get_windows (app_state_init d.app_state)).2.count ∧
    (show_switcher env d).1.app_state.selected_index
      = (if 1 < (env.get_windows (app_state_init d.app_state)).2.count then 1 else 0) := by
  have hinit : ∀ s : AppState, app_state_init s = app_state_init d.app_state := fun _ => rfl
  have hrebuild : ∀ d1 : Daemon, d1.backend = true → d1.app_state = d.app_state →
      (show_switcher_rebuild env d1).1.visible = true ∧
      (show_switcher_rebuild env d1).1.app_state.windows
        = (env.get_windows (app_state_init d.app_state)).2.windows ∧
      (show_switcher_rebuild env d1).1.app_state.count
        = (env.get_windows (app_state_init d.app_state)).2.count ∧
      (show_switcher_rebuild env d1).1.app_state.selected_index
        = (if 1 < (env.get_windows (app_state_init d.app_state)).2.count then 1 else 0) := by
    intro d1 hb1 _
    have hr1 : ¬ (env.get_windows (app_state_init d.app_state)).1 < 0 := by omega
    simp [show_switcher_rebuild, hb1, hinit (app_state_free d1.app_state), hr1]
  by_cases h1 : (d.follow_monitor && !d.surface) = true
  · have hfm : d.follow_monitor = true := by
      cases hf : d.follow_monitor <;> simp [hf] at h1 ⊢
    have hsf : d.surface = false := by
      cases hs : d.surface <;> simp [hs] at h1 ⊢
    have hce : env.create_surface = true ∧ env.get_layer_surface = true := by
      rcases hp with h | h | h
      · rw [hfm] at h; cases h
      · rw [hsf] at h; cases h
      · exact h
    have hcp : create_panel env d = { d with surface := true, layer_surface := true } := by
      simp [create_panel, hsf, hce.1, hce.2]
    simp only [show_switcher, h1, if_true, hcp, Bool.not_true, Bool.false_eq_true, if_false]
    exact hrebuild _ hb rfl
  · simp only [show_switcher, h1, hv, if_false, Bool.false_eq_true]
    exact hrebuild d hb rfl

theorem wlr_get_windows_result (bs : WlrBackendState) (alloc : Nat → Bool) (s : AppState)
    (hi : bs.initialized ≠ 0) : (wlr_get_windows bs alloc s).1 = 0 := by
  unfold wlr_get_windows
  rw [if_neg hi]
  simp only
  split <;> rfl

theorem select_and_hide_eq (d : Daemon) :
    select_and_hide d =
      (hide_switcher d,
       if d.visible && decide (d.app_state.count > 0) && d.backend then
         [Call.get_name,
          Call.activate_window
            ((array_at d.app_state.windows d.app_state.selected_index).map
              (fun win => win.address))]
       else []) := rfl

theorem handle_command_select (env : Env) (d : Daemon) (hv : d.visible = true) :
    handle_command env d CMD_SELECT = select_and_hide d := by
  rw [handle_command_visible env d CMD_SELECT (by decide) (by decide) (by decide) hv]
  have hdir : direction CMD_SELECT = 0 := by decide
  simp [hdir]

theorem direction_next : direction CMD_NEXT = 1 := by decide

theorem direction_prev : direction CMD_PREV = -1 := by decide

theorem handle_command_next (env : Env) (d : Daemon) (hv : d.visible = true)
    (hc : 0 < d.app_state.count) :
    handle_command env d CMD_NEXT =
      ({ d with
          app_state := { d.app_state with
            selected_index :=
              Int.tmod (d.app_state.selected_index + 1 + d.app_state.count)
                d.app_state.count } },
       [Call.render_ui]) := by
  rw [handle_command_visible env d CMD_NEXT (by decide) (by decide) (by decide) hv,
    direction_next]
  simp [hc]

theorem handle_command_prev (env : Env) (d : Daemon) (hv : d.visible = true)
    (hc : 0 < d.app_state.count) :
    handle_command env d CMD_PREV =
      ({ d with
          app_state := { d.app_state with
            selected_index :=
              Int.tmod (d.app_state.selected_index + -1 + d.app_state.count)
                d.app_state.count } },
       [Call.render_ui]) := by
  rw [handle_command_visible env d CMD_PREV (by decide) (by decide) (by decide) hv,
    direction_prev]
  simp [hc]

theorem unknown_command_visible_ignored (env : Env) (d : Daemon) (cmd : String)
    (hq : cmd ≠ CMD_QUIT) (hh : cmd ≠ CMD_HIDE) (ht : cmd ≠ CMD_TOGGLE)
    (hn : cmd ≠ CMD_NEXT) (hp : cmd ≠ CMD_PREV) (hs : cmd ≠ CMD_SELECT)
    (hv : d.visible = true) :
    handle_command env d cmd = (d, []) := by
  rw [handle_command_visible env d cmd hq hh ht hv]
  simp [direction, hn, hp, hs]

/-! ## The node list -/

theorem apply_states_addr (S : List Nat) :
    ∀ w : WindowNode, (apply_states w S).addr = w.addr := by
  induction S with
  | nil => intro w; rfl
  | cons s rest ih =>
    intro w
    simp only [apply_states]
    rw [ih]
    split <;> split <;> rfl

theorem apply_states_is_active (S : List Nat) :
    ∀ w : WindowNode, (apply_states w S).is_active =
      if ZWLR_FOREIGN_TOPLEVEL_HANDLE_V1_STATE_ACTIVATED ∈ S then 1 else w.is_active := by
  induction S with
  | nil => intro w; simp [apply_states]
  | cons s rest ih =>
    intro w
    simp only [apply_states]
    rw [ih]
    by_cases hr : ZWLR_FOREIGN_TOPLEVEL_HANDLE_V1_STATE_ACTIVATED ∈ rest
    · simp [hr]
    · by_cases hs : s = ZWLR_FOREIGN_TOPLEVEL_HANDLE_V1_STATE_ACTIVATED
      · simp only [hr, if_false, hs, if_true, List.mem_cons, true_or]
        split <;> rfl
      · have hs2 : ¬ ZWLR_FOREIGN_TOPLEVEL_HANDLE_V1_STATE_ACTIVATED = s := fun h => hs h.symm
        simp only [hr, if_false, List.mem_cons, hs2, or_self, hs]
        split <;> rfl

theorem closed_unlink_windows (window : Nat) (count : Int) (nodes : List WindowNode) :
    (closed_unlink window count nodes).1 = unlink window nodes := by
  induction nodes with
  | nil => rfl
  | cons curr rest ih =>
    simp only [closed_unlink, unlink]
    split
    · rfl
    · simp [ih]

theorem unlink_no_identifier (ident : String) (w : WindowNode) (hident : w.identifier = some ident) :
    ∀ nodes : List WindowNode, w ∈ nodes →
      (nodes.map (fun n => n.addr)).Nodup →
      (nodes.filterMap (fun n => n.identifier)).Nodup →
      ∀ n ∈ unlink w.addr nodes, n.identifier ≠ some ident := by
  intro nodes
  induction nodes with
  | nil => intro hw; cases hw
  | cons curr rest ih =>
    intro hw haddr hid n hn
    rw [List.map_cons, List.nodup_cons] at haddr
    by_cases hcurr : curr.addr = w.addr
    · have hwc : w = curr := by
        rcases List.mem_cons.mp hw with h | h
        · exact h
        · exfalso
          apply haddr.1
          rw [hcurr]
          exact List.mem_map.mpr ⟨w, h, rfl⟩
      simp only [unlink, hcurr, if_true] at hn
      rw [List.filterMap_cons_some (hwc ▸ hident), List.nodup_cons] at hid
      intro hnid
      exact hid.1 (List.mem_filterMap.mpr ⟨n, hn, hnid⟩)
    · have hwr : w ∈ rest := by
        rcases List.mem_cons.mp hw with h | h
        · exact absurd (by rw [h]) hcurr
        · exact h
      simp only [unlink, hcurr, if_false] at hn
      rcases List.mem_cons.mp hn with h | h
      · intro hnid
        rw [h] at hnid
        rw [List.filterMap_cons_some hnid, List.nodup_cons] at hid
        exact hid.1 (List.mem_filterMap.mpr ⟨w, hwr, hident⟩)
      · have hid2 : (rest.filterMap (fun n => n.identifier)).Nodup := by
          cases hc : curr.identifier with
          | none => rw [List.filterMap_cons_none hc] at hid; exact hid
          | some i => rw [List.filterMap_cons_some hc, List.nodup_cons] at hid; exact hid.2
        exact ih hwr haddr.2 hid2 n h

theorem unlink_removes (w : WindowNode) :
    ∀ nodes : List WindowNode, w ∈ nodes → (nodes.map (fun n => n.addr)).Nodup →
      w ∉ unlink w.addr nodes := by
  intro nodes
  induction nodes with
  | nil => intro hw; cases hw
  | cons curr rest ih =>
    intro hw haddr hmem
    rw [List.map_cons, List.nodup_cons] at haddr
    by_cases hcurr : curr.addr = w.addr
    · simp only [unlink, hcurr, if_true] at hmem
      apply haddr.1
      rw [hcurr]
      exact List.mem_map.mpr ⟨w, hmem, rfl⟩
    · have hwr : w ∈ rest := by
        rcases List.mem_cons.mp hw with h | h
        · exact absurd (by rw [h]) hcurr
        · exact h
      simp only [unlink, hcurr, if_false] at hmem
      rcases List.mem_cons.mp hmem with h | h
      · exact hcurr (by rw [h])
      · exact ih hwr haddr.2 h

theorem activate_scan_no_match (bs : WlrBackendState) (ident : String) :
    ∀ nodes : List WindowNode, (∀ n ∈ nodes, n.identifier ≠ some ident) →
      activate_scan bs ident nodes = (bs, ActivateOutcome.not_found) := by
  intro nodes
  induction nodes with
  | nil => intro _; rfl
  | cons curr rest ih =>
    intro h
    simp only [activate_scan]
    rw [if_neg (h curr (List.mem_cons_self _ _))]
    exact ih (fun n hn => h n (List.mem_cons_of_mem _ hn))

/-! ## Filling the registry -/

theorem app_state_store_windows (s : AppState) (info : WindowInfo)
    (h : s.count = s.windows.length) :
    (app_state_store s info).windows = s.windows ++ [info] ∧
    (app_state_store s info).count = s.count + 1 ∧
    (app_state_store s info).capacity = s.capacity := by
  have hn : s.count.toNat = s.windows.length := by omega
  simp [app_state_store, hn]

theorem app_state_add_shape (s : AppState) (info : WindowInfo) (ok : Bool)
    (hs : RegistryShape s) (hr : (app_state_add s info ok).2 = 0) :
    RegistryShape (app_state_add s info ok).1 ∧
    (app_state_add s info ok).1.windows = s.windows ++ [info] ∧
    (app_state_add s info ok).1.count = s.count + 1 ∧
    ((app_state_add s info ok).1.capacity = s.capacity ∨
     (s.capacity = 0 ∧ (app_state_add s info ok).1.capacity = 32) ∨
     (app_state_add s info ok).1.capacity = s.capacity * 2) := by
  obtain ⟨hlen, hfit, hpow, htight⟩ := hs
  by_cases hfull : s.count ≥ s.capacity
  · cases ok with
    | false => simp [app_state_add, hfull] at hr
    | true =>
      have hst := app_state_store_windows
        { s with capacity := if s.capacity = 0 then INITIAL_CAPACITY else s.capacity * 2 } info hlen
      simp only [app_state_add, hfull, if_true]
      obtain ⟨hw, hc, hcap⟩ := hst
      refine ⟨⟨?_, ?_, ?_, ?_⟩, hw, hc, ?_⟩
      · rw [hc, hw]; simp [hlen]
      · rw [hc, hcap]
        simp only [INITIAL_CAPACITY]
        rcases hpow with h0 | ⟨k, hk⟩
        · rw [if_pos h0]; omega
        · have hpos : (0 : Int) < 2 ^ k := by positivity
          have hne : s.capacity ≠ 0 := by omega
          rw [if_neg hne]; omega
      · rw [hcap]
        simp only [INITIAL_CAPACITY]
        rcases hpow with h0 | ⟨k, hk⟩
        · rw [if_pos h0]; exact Or.inr ⟨0, by norm_num⟩
        · have hpos : (0 : Int) < 2 ^ k := by positivity
          have hne : s.capacity ≠ 0 := by omega
          rw [if_neg hne]
          exact Or.inr ⟨k + 1, by rw [hk, pow_succ]; ring⟩
      · rw [hc, hcap]
        simp only [INITIAL_CAPACITY]
        by_cases h0 : s.capacity = 0
        · rw [if_pos h0]; exact Or.inl (le_refl _)
        · rw [if_neg h0]; right; omega
      · rw [hcap]
        simp only [INITIAL_CAPACITY]
        by_cases h0 : s.capacity = 0
        · rw [if_pos h0]; exact Or.inr (Or.inl ⟨h0, rfl⟩)
        · rw [if_neg h0]; exact Or.inr (Or.inr rfl)
  · obtain ⟨hw, hc, hcap⟩ := app_state_store_windows s info hlen
    simp only [app_state_add, hfull, if_false]
    refine ⟨⟨?_, ?_, ?_, ?_⟩, hw, hc, Or.inl hcap⟩
    · rw [hc, hw]; simp [hlen]
    · rw [hc, hcap]; omega
    · rw [hcap]; exact hpow
    · rw [hc, hcap]
      rcases htight with h | h
      · exact Or.inl h
      · right; omega

theorem app_state_init_shape (s : AppState) : RegistryShape (app_state_init s) := by
  refine ⟨rfl, le_refl _, Or.inl rfl, Or.inl ?_⟩
  simp [app_state_init]

theorem app_state_add_all_shape (calls : List (WindowInfo × Bool)) :
    ∀ s : AppState, RegistryShape s → (∀ r ∈ (app_state_add_all s calls).2, r = 0) →
      RegistryShape (app_state_add_all s calls).1 ∧
      (app_state_add_all s calls).1.windows = s.windows ++ calls.map Prod.fst ∧
      (app_state_add_all s calls).1.count = s.count + calls.length := by
  induction calls with
  | nil => intro s hs _; simp [app_state_add_all, hs]
  | cons call rest ih =>
    intro s hs hr
    obtain ⟨info, ok⟩ := call
    simp only [app_state_add_all] at hr ⊢
    have h1 : (app_state_add s info ok).2 = 0 := hr _ (List.mem_cons_self _ _)
    obtain ⟨hshape, hw, hc, _⟩ := app_state_add_shape s info ok hs h1
    obtain ⟨a, b, c⟩ := ih (app_state_add s info ok).1 hshape
      (fun r hmem => hr r (List.mem_cons_of_mem _ hmem))
    refine ⟨a, ?_, ?_⟩
    · rw [b, hw]; simp
    · rw [c, hc]; simp only [List.length_cons, Nat.cast_add, Nat.cast_one]; omega

theorem app_state_add_all_take (calls : List (WindowInfo × Bool)) :
    ∀ (s : AppState) (k : Nat),
      (app_state_add_all s (calls.take k)).2 = (app_state_add_all s calls).2.take k := by
  induction calls with
  | nil => intro s k; simp [app_state_add_all]
  | cons call rest ih =>
    intro s k
    obtain ⟨info, ok⟩ := call
    cases k with
    | zero => simp [app_state_add_all]
    | succ k => simp [app_state_add_all, ih]

theorem app_state_add_true (s : AppState) (info : WindowInfo) :
    (app_state_add s info true).2 = 0 := by
  unfold app_state_add
  split <;> rfl

theorem get_windows_loop_fill (alloc : Nat → Bool) (halloc : ∀ i, alloc i = true)
    (nodes : List WindowNode) :
    ∀ (index : Nat) (s : AppState), RegistryShape s →
      RegistryShape (get_windows_loop alloc nodes index s) ∧
      (get_windows_loop alloc nodes index s).windows
        = s.windows ++ (shown_nodes nodes).map window_info_of_node ∧
      (get_windows_loop alloc nodes index s).count = s.count + (shown_nodes nodes).length := by
  induction nodes with
  | nil => intro index s hs; simp [get_windows_loop, shown_nodes, hs]
  | cons curr rest ih =>
    intro index s hs
    by_cases hmin : curr.is_minimized = 0
    · have hr : (app_state_add s (window_info_of_node curr) (alloc index)).2 = 0 := by
        rw [halloc]; exact app_state_add_true _ _
      obtain ⟨hshape, hw, hc, _⟩ := app_state_add_shape s _ _ hs hr
      obtain ⟨a, b, c⟩ := ih (index + 1) _ hshape
      simp only [get_windows_loop, hmin, ne_eq, not_true_eq_false, if_false]
      refine ⟨a, ?_, ?_⟩
      · rw [b, hw]; simp [shown_nodes, hmin]
      · rw [c, hc]
        simp only [shown_nodes, hmin, decide_True, List.filter_cons_of_pos, List.length_cons,
          Nat.cast_add, Nat.cast_one]
        omega
    · obtain ⟨a, b, c⟩ := ih index s hs
      simp only [get_windows_loop, hmin, ne_eq, not_false_eq_true, if_true]
      refine ⟨a, ?_, ?_⟩
      · rw [b]; simp [shown_nodes, hmin]
      · rw [c]; simp [shown_nodes, hmin]

/-! ## Reordering the node list -/

theorem apply_states_is_minimized (S : List Nat) :
    ∀ w : WindowNode, (apply_states w S).is_minimized =
      if ZWLR_FOREIGN_TOPLEVEL_HANDLE_V1_STATE_MINIMIZED ∈ S then 1 else w.is_minimized := by
  induction S with
  | nil => intro w; simp [apply_states]
  | cons s rest ih =>
    intro w
    simp only [apply_states]
    rw [ih]
    by_cases hr : ZWLR_FOREIGN_TOPLEVEL_HANDLE_V1_STATE_MINIMIZED ∈ rest
    · simp [hr]
    · by_cases hs : s = ZWLR_FOREIGN_TOPLEVEL_HANDLE_V1_STATE_MINIMIZED
      · simp only [hr, if_false, hs, if_true, List.mem_cons, true_or]
      · have hs2 : ¬ ZWLR_FOREIGN_TOPLEVEL_HANDLE_V1_STATE_MINIMIZED = s := fun h => hs h.symm
        simp only [hr, if_false, List.mem_cons, hs2, or_self, hs]
        split <;> rfl

theorem find_addr (a : Nat) :
    ∀ nodes : List WindowNode, (∃ n ∈ nodes, n.addr = a) →
      ∃ w0, nodes.find? (fun n => decide (n.addr = a)) = some w0 ∧ w0.addr = a ∧ w0 ∈ nodes := by
  intro nodes
  induction nodes with
  | nil => rintro ⟨n, hn, _⟩; cases hn
  | cons curr rest ih =>
    rintro ⟨n, hn, hna⟩
    by_cases hc : curr.addr = a
    · exact ⟨curr, by simp [List.find?, hc], hc, List.mem_cons_self _ _⟩
    · have hrest : ∃ n ∈ rest, n.addr = a := by
        rcases List.mem_cons.mp hn with h | h
        · rw [h] at hna; exact absurd hna hc
        · exact ⟨n, h, hna⟩
      obtain ⟨w0, hf, hw, hm⟩ := ih hrest
      exact ⟨w0, by simp [List.find?, hc, hf], hw, List.mem_cons_of_mem _ hm⟩

theorem store_node_addrs (w : WindowNode) :
    ∀ nodes : List WindowNode,
      (store_node w nodes).map (fun n => n.addr) = nodes.map (fun n => n.addr) := by
  intro nodes
  induction nodes with
  | nil => rfl
  | cons curr rest ih =>
    by_cases hc : curr.addr = w.addr
    · simp [store_node, hc]
    · simp [store_node, hc, ih]

theorem store_node_find (w : WindowNode) :
    ∀ nodes : List WindowNode, (∃ n ∈ nodes, n.addr = w.addr) →
      (store_node w nodes).find? (fun n => decide (n.addr = w.addr)) = some w := by
  intro nodes
  induction nodes with
  | nil => rintro ⟨n, hn, _⟩; cases hn
  | cons curr rest ih =>
    rintro ⟨n, hn, hna⟩
    by_cases hc : curr.addr = w.addr
    · simp [store_node, hc, List.find?]
    · have hrest : ∃ n ∈ rest, n.addr = w.addr := by
        rcases List.mem_cons.mp hn with h | h
        · rw [h] at hna; exact absurd hna hc
        · exact ⟨n, h, hna⟩
      simp [store_node, hc, List.find?, ih hrest]

theorem move_window_to_front_head (st : WlrBackendState) (w : WindowNode)
    (hfind : st.windows.find? (fun n => decide (n.addr = w.addr)) = some w) :
    (move_window_to_front st (some w)).windows.head? = some w := by
  cases hl : st.windows with
  | nil => rw [hl] at hfind; cases hfind
  | cons head rest =>
    by_cases hh : w.addr = head.addr
    · rw [hl] at hfind
      simp only [List.find?, hh.symm, decide_True] at hfind
      simp only [move_window_to_front, hl, hh, if_true]
      simpa using hfind
    · simp [move_window_to_front, hl, hh]

theorem unlink_eq_erase (w : WindowNode) :
    ∀ nodes : List WindowNode, w ∈ nodes → (nodes.map (fun n => n.addr)).Nodup →
      unlink w.addr nodes = nodes.erase w := by
  intro nodes
  induction nodes with
  | nil => intro hw; cases hw
  | cons curr rest ih =>
    intro hw haddr
    rw [List.map_cons, List.nodup_cons] at haddr
    by_cases hcurr : curr.addr = w.addr
    · have hwc : curr = w := by
        rcases List.mem_cons.mp hw with h | h
        · exact h.symm
        · exfalso
          apply haddr.1
          rw [hcurr]
          exact List.mem_map.mpr ⟨w, h, rfl⟩
      simp [unlink, hwc]
    · have hne : curr ≠ w := fun h => hcurr (by rw [h])
      have hwr : w ∈ rest := by
        rcases List.mem_cons.mp hw with h | h
        · exact absurd h.symm hne
        · exact h
      simp only [unlink, hcurr, if_false]
      rw [List.erase_cons_tail (by simpa using hne), ih hwr haddr.2]

theorem move_window_to_front_erase (st : WlrBackendState) (w : WindowNode)
    (hw : w ∈ st.windows) (haddr : (st.windows.map (fun n => n.addr)).Nodup) :
    move_window_to_front st (some w) = { st with windows := w :: st.windows.erase w } := by
  cases hl : st.windows with
  | nil => rw [hl] at hw; cases hw
  | cons head rest =>
    rw [hl] at hw haddr
    by_cases hh : w.addr = head.addr
    · have hwh : head = w := by
        rw [List.map_cons, List.nodup_cons] at haddr
        rcases List.mem_cons.mp hw with h | h
        · exact h.symm
        · exfalso
          apply haddr.1
          rw [← hh]
          exact List.mem_map.mpr ⟨w, h, rfl⟩
      simp only [move_window_to_front, hl, hh, if_true]
      cases st
      simp only [WlrBackendState.mk.injEq, true_and] at hl ⊢
      simp [hl, hwh]
    · simp only [move_window_to_front, hl, hh, if_false]
      rw [unlink_eq_erase w (head :: rest) hw haddr]

theorem activate_scan_find (bs : WlrBackendState) (ident : String) (curr : WindowNode) :
    ∀ nodes : List WindowNode,
      nodes.find? (fun n => decide (n.identifier = some ident)) = some curr →
      activate_scan bs ident nodes =
        (move_window_to_front bs (some curr),
         ActivateOutcome.matched
           (if curr.handle ≠ 0 ∧ bs.seat ≠ 0 then some curr.handle else none)) := by
  intro nodes
  induction nodes with
  | nil => intro h; cases h
  | cons head rest ih =>
    intro h
    by_cases hid : head.identifier = some ident
    · simp only [List.find?, hid, decide_True, Option.some.injEq] at h
      subst h
      simp only [activate_scan, hid, if_true]
    · simp only [List.find?, hid, decide_False] at h
      simp only [activate_scan, hid, if_false]
      exact ih h

theorem find_of_head (a : Nat) (w : WindowNode) (nodes : List WindowNode)
    (hhead : nodes.head? = some w) (hw : w.addr = a) :
    nodes.find? (fun n => decide (n.addr = a)) = some w := by
  cases nodes with
  | nil => cases hhead
  | cons head rest =>
    simp only [List.head?, Option.some.injEq] at hhead
    simp [List.find?, hhead, hw]

theorem toplevel_handle_state_eq (st : WlrBackendState) (window : Nat) (wl_state : List Nat)
    (w0 w : WindowNode)
    (hf : st.windows.find? (fun n => decide (n.addr = window)) = some w0)
    (hw : w = apply_states { w0 with state := 0, is_active := 0, is_minimized := 0 } wl_state) :
    toplevel_handle_state st window wl_state =
      if w.is_active ≠ 0 then
        some (move_window_to_front { st with windows := store_node w st.windows } (some w))
      else some { st with windows := store_node w st.windows } := by
  subst hw
  simp only [toplevel_handle_state, hf]

/-! ## The node counter -/

theorem unlink_length (a : Nat) :
    ∀ nodes : List WindowNode, (∃ n ∈ nodes, n.addr = a) →
      (unlink a nodes).length + 1 = nodes.length := by
  intro nodes
  induction nodes with
  | nil => rintro ⟨n, hn, _⟩; cases hn
  | cons curr rest ih =>
    rintro ⟨n, hn, hna⟩
    by_cases hc : curr.addr = a
    · simp [unlink, hc]
    · have hrest : ∃ n ∈ rest, n.addr = a := by
        rcases List.mem_cons.mp hn with h | h
        · rw [h] at hna; exact absurd hna hc
        · exact ⟨n, h, hna⟩
      simp [unlink, hc, ih hrest]

theorem closed_unlink_count (a : Nat) (count : Int) :
    ∀ nodes : List WindowNode, (∃ n ∈ nodes, n.addr = a) →
      (closed_unlink a count nodes).2 = count - 1 := by
  intro nodes
  induction nodes with
  | nil => rintro ⟨n, hn, _⟩; cases hn
  | cons curr rest ih =>
    rintro ⟨n, hn, hna⟩
    by_cases hc : curr.addr = a
    · simp [closed_unlink, hc]
    · have hrest : ∃ n ∈ rest, n.addr = a := by
        rcases List.mem_cons.mp hn with h | h
        · rw [h] at hna; exact absurd hna hc
        · exact ⟨n, h, hna⟩
      simp [closed_unlink, hc, ih hrest]

theorem store_node_length (w : WindowNode) (nodes : List WindowNode) :
    (store_node w nodes).length = nodes.length := by
  have h := congrArg List.length (store_node_addrs w nodes)
  simpa using h

theorem store_node_live (w : WindowNode) (a : Nat) (nodes : List WindowNode)
    (h : ∃ n ∈ nodes, n.addr = a) : ∃ n ∈ store_node w nodes, n.addr = a := by
  obtain ⟨n, hn, hna⟩ := h
  have hmem : a ∈ nodes.map (fun n => n.addr) := List.mem_map.mpr ⟨n, hn, hna⟩
  rw [← store_node_addrs w nodes] at hmem
  obtain ⟨m, hm, hma⟩ := List.mem_map.mp hmem
  exact ⟨m, hm, hma⟩

theorem move_window_to_front_count (st : WlrBackendState) (w : WindowNode)
    (hlive : ∃ n ∈ st.windows, n.addr = w.addr) :
    (move_window_to_front st (some w)).windows.length = st.windows.length ∧
    (move_window_to_front st (some w)).window_count = st.window_count := by
  cases hl : st.windows with
  | nil => simp [move_window_to_front, hl]
  | cons head rest =>
    by_cases hh : w.addr = head.addr
    · simp [move_window_to_front, hl, hh]
    · rw [hl] at hlive
      have hlen := unlink_length w.addr (head :: rest) hlive
      simp only [move_window_to_front, hl, hh, if_false, List.length_cons]
      simp only [List.length_cons] at hlen
      exact ⟨hlen, trivial⟩

theorem toplevel_handle_state_count (st st1 : WlrBackendState) (window : Nat)
    (wl_state : List Nat) (h : toplevel_handle_state st window wl_state = some st1) :
    st1.windows.length = st.windows.length ∧ st1.window_count = st.window_count := by
  cases hf : st.windows.find? (fun n => decide (n.addr = window)) with
  | none => simp [toplevel_handle_state, hf] at h
  | some w0 =>
    have hmem : w0 ∈ st.windows := List.mem_of_find?_eq_some hf
    have hw0 : w0.addr = window := by
      have := List.find?_some hf
      simpa using this
    obtain ⟨w, hw⟩ : ∃ w, w = apply_states
        { w0 with state := 0, is_active := 0, is_minimized := 0 } wl_state := ⟨_, rfl⟩
    have haddr : w.addr = w0.addr := by rw [hw, apply_states_addr]
    rw [toplevel_handle_state_eq st window wl_state w0 w hf hw] at h
    by_cases ha : w.is_active ≠ 0
    · rw [if_pos ha] at h
      have hlive : ∃ n ∈ ({ st with windows := store_node w st.windows } :
          WlrBackendState).windows, n.addr = w.addr :=
        store_node_live w w.addr st.windows ⟨w0, hmem, haddr.symm⟩
      obtain ⟨h1, h2⟩ := move_window_to_front_count _ w hlive
      rw [← Option.some.inj h]
      exact ⟨by rw [h1]; exact store_node_length w st.windows, h2⟩
    · rw [if_neg ha] at h
      rw [← Option.some.inj h]
      exact ⟨store_node_length w st.windows, rfl⟩

theorem activate_scan_count (bs : WlrBackendState) (ident : String) :
    ∀ nodes : List WindowNode, (∀ n ∈ nodes, n ∈ bs.windows) →
      (activate_scan bs ident nodes).1.windows.length = bs.windows.length ∧
      (activate_scan bs ident nodes).1.window_count = bs.window_count := by
  intro nodes
  induction nodes with
  | nil => intro _; exact ⟨rfl, rfl⟩
  | cons curr rest ih =>
    intro hsub
    by_cases hid : curr.identifier = some ident
    · simp only [activate_scan, hid, if_true]
      exact move_window_to_front_count bs curr
        ⟨curr, hsub curr (List.mem_cons_self _ _), rfl⟩
    · simp only [activate_scan, hid, if_false]
      exact ih (fun n hn => hsub n (List.mem_cons_of_mem _ hn))

theorem wlr_activate_window_count (bs : WlrBackendState) (identifier : Option String) :
    (wlr_activate_window bs identifier).1.windows.length = bs.windows.length ∧
    (wlr_activate_window bs identifier).1.window_count = bs.window_count := by
  cases identifier with
  | none => exact ⟨rfl, rfl⟩
  | some ident =>
    by_cases hi : bs.initialized = 0
    · simp [wlr_activate_window, hi]
    · simp only [wlr_activate_window, hi, if_false]
      exact activate_scan_count bs ident bs.windows (fun _ h => h)

theorem any_addr_live (a : Nat) (nodes : List WindowNode)
    (h : nodes.any (fun n => decide (n.addr = a)) = true) : ∃ n ∈ nodes, n.addr = a := by
  obtain ⟨n, hn, hna⟩ := List.any_eq_true.mp h
  exact ⟨n, hn, by simpa using hna⟩

theorem backend_step_count (st st1 : WlrBackendState) (e : BackendEvent)
    (hstep : backend_step st e = some st1) (hinv : st.window_count = st.windows.length) :
    st1.window_count = st1.windows.length := by
  unfold backend_step at hstep
  by_cases hlive : event_on_live_node st e = true
  · rw [if_pos hlive] at hstep
    cases e with
    | toplevel toplevel node identifier =>
      simp only [Option.some.injEq] at hstep
      rw [← hstep]
      by_cases hnode : node = 0
      · simp [manager_handle_toplevel, hnode, hinv]
      · simp [manager_handle_toplevel, hnode, hinv]
    | state window wl_state =>
      simp only at hstep
      obtain ⟨h1, h2⟩ := toplevel_handle_state_count st st1 window wl_state hstep
      rw [h1, h2, hinv]
    | closed window =>
      simp only [Option.some.injEq] at hstep
      have hl := any_addr_live window st.windows hlive
      rw [← hstep]
      simp only [toplevel_handle_closed, closed_unlink_windows]
      rw [closed_unlink_count window st.window_count st.windows hl, hinv]
      have := unlink_length window st.windows hl
      omega
    | activate identifier =>
      simp only [Option.some.injEq] at hstep
      obtain ⟨h1, h2⟩ := wlr_activate_window_count st identifier
      rw [← hstep, h1, h2, hinv]
  · rw [if_neg hlive] at hstep
    cases hstep

theorem backend_step_defined (st : WlrBackendState) (e : BackendEvent)
    (hlive : event_on_live_node st e = true) : ∃ st1, backend_step st e = some st1 := by
  unfold backend_step
  rw [if_pos hlive]
  cases e with
  | toplevel toplevel node identifier => exact ⟨_, rfl⟩
  | state window wl_state =>
    obtain ⟨w0, hf, _, _⟩ := find_addr window st.windows (any_addr_live window st.windows hlive)
    simp only
    rw [toplevel_handle_state_eq st window wl_state w0 _ hf rfl]
    split <;> exact ⟨_, rfl⟩
  | closed window => exact ⟨_, rfl⟩
  | activate identifier => exact ⟨_, rfl⟩

theorem backend_run_count (events : List BackendEvent) :
    ∀ st : WlrBackendState, st.window_count = st.windows.length →
      events_on_live_nodes st events = true →
      ∃ states : List WlrBackendState,
        backend_run st events = some states ∧ states.length = events.length ∧
        ∀ s ∈ states, s.window_count = s.windows.length := by
  induction events with
  | nil => intro st _ _; exact ⟨[], rfl, rfl, fun s hs => by cases hs⟩
  | cons e rest ih =>
    intro st hinv hlive
    simp only [events_on_live_nodes, Bool.and_eq_true] at hlive
    obtain ⟨he, hrest⟩ := hlive
    obtain ⟨st1, hstep⟩ := backend_step_defined st e he
    rw [hstep] at hrest
    have hinv1 := backend_step_count st st1 e hstep hinv
    obtain ⟨states, hrun, hlen, hall⟩ := ih st1 hinv1 hrest
    refine ⟨st1 :: states, ?_, by simp [hlen], ?_⟩
    · simp [backend_run, hstep, hrun]
    · intro s hs
      rcases List.mem_cons.mp hs with h | h
      · rw [h]; exact hinv1
      · exact hall s h

/-! ## The loop of `run_daemon` -/

theorem reactor_iteration_samples :
    sample_waits.map (fun w =>
      reactor_iteration
        { prepare_ret := 0, pending_ret := 0, wait := w, read_ret := 0, dispatch_ret := 0 })
    = [([DisplayCall.prepare_read 0, DisplayCall.flush, DisplayCall.poll,
          DisplayCall.cancel_read], LoopControl.fall_through),
       ([DisplayCall.prepare_read 0, DisplayCall.flush, DisplayCall.poll,
          DisplayCall.cancel_read], LoopControl.continue_loop),
       ([DisplayCall.prepare_read 0, DisplayCall.flush, DisplayCall.poll,
          DisplayCall.read_events, DisplayCall.dispatch_pending], LoopControl.fall_through),
       ([DisplayCall.prepare_read 0, DisplayCall.flush, DisplayCall.poll,
          DisplayCall.cancel_read], LoopControl.fall_through),
       ([DisplayCall.prepare_read 0, DisplayCall.flush, DisplayCall.poll,
          DisplayCall.cancel_read], LoopControl.leave)] := by
  decide

/-! ## The claims -/

/-- C1: from the initial daemon state, after any sequence of commands handled
by `handle_command` (whatever the strings are and whatever window lists the
backend enumerations produce, as long as they only fill the registry), a
non-empty registry has `0 <= selected_index < count`. -/
theorem selected_index_in_range (follow_monitor : Bool) (steps : List (Env × String))
    (hk : ∀ step ∈ steps, KeepsSelection step.1.get_windows)
    (hne : 0 < (run_commands (initial_daemon follow_monitor) steps).app_state.count) :
    0 ≤ (run_commands (initial_daemon follow_monitor) steps).app_state.selected_index ∧
    (run_commands (initial_daemon follow_monitor) steps).app_state.selected_index <
      (run_commands (initial_daemon follow_monitor) steps).app_state.count := by
  have hinit : SelectionInRange (initial_daemon follow_monitor).app_state := by
    intro h
    simp [initial_daemon, app_state_init] at h
  exact run_commands_in_range steps (initial_daemon follow_monitor) hk hinit hne

theorem selected_index_in_range_witness :
    0 ≤ (run_commands (initial_daemon false)
          [(sample_env, "TOGGLE"), (sample_env, "NEXT"), (sample_env, "bogus"),
           (sample_env, "PREV"), (sample_env, "PREV")]).app_state.selected_index ∧
    (run_commands (initial_daemon false)
          [(sample_env, "TOGGLE"), (sample_env, "NEXT"), (sample_env, "bogus"),
           (sample_env, "PREV"), (sample_env, "PREV")]).app_state.selected_index <
      (run_commands (initial_daemon false)
          [(sample_env, "TOGGLE"), (sample_env, "NEXT"), (sample_env, "bogus"),
           (sample_env, "PREV"), (sample_env, "PREV")]).app_state.count :=
  selected_index_in_range false _
    (by
      intro step hs
      simp only [List.mem_cons, List.mem_singleton, List.not_mem_nil, or_false] at hs
      rcases hs with h | h | h | h | h <;> subst h <;>
        exact wlr_get_windows_keeps_selection _ _)
    (by decide)

/-- C2: while the switcher is visible with a non-empty registry and the
selection in range, handling NEXT and then PREV restores `selected_index`
(the whole daemon state is as before), also when NEXT wraps from `count - 1`
to `0`. -/
theorem next_then_prev_restores (env1 env2 : Env) (d : Daemon) (hv : d.visible = true)
    (hc : 0 < d.app_state.count) (h0 : 0 ≤ d.app_state.selected_index)
    (h1 : d.app_state.selected_index < d.app_state.count) :
    (handle_command env2 (handle_command env1 d CMD_NEXT).1 CMD_PREV).1.app_state.selected_index
        = d.app_state.selected_index ∧
    (handle_command env2 (handle_command env1 d CMD_NEXT).1 CMD_PREV).1 = d ∧
    (d.app_state.selected_index = d.app_state.count - 1 →
      (handle_command env1 d CMD_NEXT).1.app_state.selected_index = 0) := by
  have hback : (handle_command env2 (handle_command env1 d CMD_NEXT).1 CMD_PREV).1 = d := by
    rw [handle_command_next env1 d hv hc]
    rw [handle_command_prev env2
      { d with
        app_state := { d.app_state with
          selected_index :=
            Int.tmod (d.app_state.selected_index + 1 + d.app_state.count)
              d.app_state.count } } hv hc]
    simp only
    rw [advance_next_prev _ _ hc h0 h1]
  refine ⟨by rw [hback], hback, ?_⟩
  intro hlast
  rw [handle_command_next env1 d hv hc]
  have hsum : d.app_state.selected_index + 1 + d.app_state.count
      = d.app_state.count + d.app_state.count := by omega
  simp only
  rw [hsum, Int.tmod_eq_emod (by omega) (le_of_lt hc), Int.add_emod_self, Int.emod_self]

theorem next_then_prev_restores_witness :
    (handle_command sample_env
      (handle_command sample_env
        (handle_command sample_env (initial_daemon false) CMD_TOGGLE).1 CMD_NEXT).1
      CMD_PREV).1.app_state.selected_index = 1 :=
  (next_then_prev_restores sample_env sample_env
    (handle_command sample_env (initial_daemon false) CMD_TOGGLE).1
    (by decide) (by decide) (by decide) (by decide)).1

/-- C3: the command `FOO` is none of the six tokens, yet handling it while
the switcher is hidden calls the backend's `get_windows` and the renderer's
`calculate_dimensions`, rebuilds the registry and leaves the switcher
visible. -/
theorem unknown_command_not_ignored_when_hidden :
    ("FOO" ≠ CMD_NEXT ∧ "FOO" ≠ CMD_PREV ∧ "FOO" ≠ CMD_SELECT ∧
      "FOO" ≠ CMD_TOGGLE ∧ "FOO" ≠ CMD_HIDE ∧ "FOO" ≠ CMD_QUIT) ∧
    (initial_daemon false).visible = false ∧
    (handle_command sample_env (initial_daemon false) "FOO").1.visible = true ∧
    (handle_command sample_env (initial_daemon false) "FOO").1.app_state.count = 2 ∧
    (handle_command sample_env (initial_daemon false) "FOO").1.app_state.selected_index = 1 ∧
    (handle_command sample_env (initial_daemon false) "FOO").2
      = [Call.get_windows, Call.calculate_dimensions] := by
  decide

/-- C4, as stated, fails: with an empty window list the selection after the
TOGGLE is `0`, not `min (1, len - 1) = -1`; and in follow-monitor mode a
TOGGLE whose panel cannot be created leaves the switcher hidden although the
backend would enumerate its windows. -/
theorem toggle_hidden_counterexample :
    ((empty_env.get_windows (initial_daemon false).app_state).1 = 0 ∧
     (handle_command empty_env (initial_daemon false) CMD_TOGGLE).1.app_state.count = 0 ∧
     (handle_command empty_env (initial_daemon false) CMD_TOGGLE).1.app_state.selected_index
       ≠ min 1 ((handle_command empty_env (initial_daemon false) CMD_TOGGLE).1.app_state.count
                  - 1)) ∧
    (hidden_without_panel.visible = false ∧
     hidden_without_panel.follow_monitor = true ∧
     hidden_without_panel.surface = false ∧
     (no_surface_env.get_windows hidden_without_panel.app_state).1 = 0 ∧
     (handle_command no_surface_env hidden_without_panel CMD_TOGGLE).1.visible = false) := by
  decide

/-- C4, amended: when the switcher is hidden, the backend is set, the overlay
surface exists or can be created, and the backend's enumeration succeeds,
TOGGLE leaves the switcher visible with the enumerated registry and
`selected_index` equal to `1` if `count > 1` and to `0` otherwise, which is
`min (1, count - 1)` whenever `count >= 1`. -/
theorem toggle_hidden_shows (env : Env) (d : Daemon) (hv : d.visible = false)
    (hb : d.backend = true)
    (hp : d.follow_monitor = false ∨ d.surface = true ∨
      (env.create_surface = true ∧ env.get_layer_surface = true))
    (hr : 0 ≤ (env.get_windows (app_state_init d.app_state)).1) :
    (handle_command env d CMD_TOGGLE).1.visible = true ∧
    (handle_command env d CMD_TOGGLE).1.app_state.windows
      = (env.get_windows (app_state_init d.app_state)).2.windows ∧
    (handle_command env d CMD_TOGGLE).1.app_state.count
      = (env.get_windows (app_state_init d.app_state)).2.count ∧
    (handle_command env d CMD_TOGGLE).1.app_state.selected_index
      = (if 1 < (env.get_windows (app_state_init d.app_state)).2.count then 1 else 0) ∧
    (1 ≤ (env.get_windows (app_state_init d.app_state)).2.count →
      (handle_command env d CMD_TOGGLE).1.app_state.selected_index
        = min 1 ((env.get_windows (app_state_init d.app_state)).2.count - 1)) := by
  rw [handle_command_toggle]
  simp only [hv, Bool.false_eq_true, if_false]
  obtain ⟨a, b, c, e⟩ := show_switcher_when_enumerated env d hv hb hp hr
  refine ⟨a, b, c, e, ?_⟩
  intro hone
  rw [e]
  split
  · rw [min_eq_left (by omega)]
  · rw [min_eq_right (by omega)]; omega

theorem toggle_hidden_shows_witness :
    (handle_command sample_env (initial_daemon false) CMD_TOGGLE).1.visible = true ∧
    (handle_command sample_env (initial_daemon false) CMD_TOGGLE).1.app_state.selected_index
      = 1 :=
  ⟨(toggle_hidden_shows sample_env (initial_daemon false) (by decide) (by decide)
      (Or.inl (by decide)) (by decide)).1,
   (toggle_hidden_shows sample_env (initial_daemon false) (by decide) (by decide)
      (Or.inl (by decide)) (by decide)).2.2.2.1⟩

/-- C5, as stated, fails: with `sample_backend` and every `realloc` failing,
the first `app_state_add` of the enumeration returns `-1`, yet
`wlr_get_windows` returns `0` and the TOGGLE that started the show leaves the
switcher visible, with an empty registry. -/
theorem failed_append_counterexample :
    (app_state_add (app_state_init (initial_daemon false).app_state)
      (window_info_of_node
        { addr := 300, handle := 30, title := some "term", app_id := some "foot",
          identifier := some "wlr-0x1e", state := 4, is_active := 1, is_minimized := 0 })
      false).2 = -1 ∧
    (failing_alloc_env.get_windows (initial_daemon false).app_state).1 = 0 ∧
    (handle_command failing_alloc_env (initial_daemon false) CMD_TOGGLE).1.visible = true ∧
    (handle_command failing_alloc_env (initial_daemon false) CMD_TOGGLE).1.app_state.count
      = 0 := by
  decide

/-- C5, amended: when an `app_state_add` fails while the initialised
protocol-listener backend enumerates, the registry stays as it was before that
call, the loop goes on with the next node, `wlr_get_windows` still returns
`0`, and the show is not aborted: with the backend set and the overlay surface
available, the hidden switcher becomes visible. -/
theorem failed_append_skips_window (bs : WlrBackendState) (alloc : Nat → Bool) (env : Env)
    (d : Daemon) (henv : env.get_windows = wlr_get_windows bs alloc)
    (hi : bs.initialized ≠ 0) (hv : d.visible = false) (hb : d.backend = true)
    (hp : d.follow_monitor = false ∨ d.surface = true ∨
      (env.create_surface = true ∧ env.get_layer_surface = true)) :
    (∀ (s : AppState) (info : WindowInfo) (ok : Bool),
      (app_state_add s info ok).2 < 0 → (app_state_add s info ok).1 = s) ∧
    (∀ (curr : WindowNode) (rest : List WindowNode) (index : Nat) (s : AppState),
      curr.is_minimized = 0 →
      (app_state_add s (window_info_of_node curr) (alloc index)).2 < 0 →
      get_windows_loop alloc (curr :: rest) index s
        = get_windows_loop alloc rest (index + 1) s) ∧
    (∀ s : AppState, (wlr_get_windows bs alloc s).1 = 0) ∧
    (show_switcher env d).1.visible = true := by
  have hadd : ∀ (s : AppState) (info : WindowInfo) (ok : Bool),
      (app_state_add s info ok).2 < 0 → (app_state_add s info ok).1 = s := by
    intro s info ok h
    unfold app_state_add at h ⊢
    split
    · cases ok
      · rfl
      · rw [if_pos ‹_›] at h; simp at h
    · rw [if_neg ‹_›] at h; simp at h
  refine ⟨hadd, ?_, fun s => wlr_get_windows_result bs alloc s hi, ?_⟩
  · intro curr rest index s hmin hfail
    simp only [get_windows_loop, hmin, ne_eq, not_true_eq_false, if_false]
    rw [hadd _ _ _ hfail]
  · have hr : 0 ≤ (env.get_windows (app_state_init d.app_state)).1 := by
      rw [henv, wlr_get_windows_result bs alloc _ hi]
    exact (show_switcher_when_enumerated env d hv hb hp hr).1

theorem failed_append_skips_window_witness :
    (show_switcher failing_alloc_env (initial_daemon false)).1.visible = true :=
  (failed_append_skips_window sample_backend (fun _ => false) failing_alloc_env
    (initial_daemon false) rfl (by decide) (by decide) (by decide) (Or.inl (by decide))).2.2.2

/-- C6: in a visible state whose registry holds `count > 0` entries with the
selection in range, handling SELECT calls the backend's `activate_window`
exactly once, with the address of the entry at `selected_index`, leaves the
registry as it is and ends with the switcher hidden. -/
theorem select_activates_selected (env : Env) (d : Daemon) (hv : d.visible = true)
    (hb : d.backend = true) (hlen : d.app_state.count = d.app_state.windows.length)
    (hc : 0 < d.app_state.count) (h0 : 0 ≤ d.app_state.selected_index)
    (h1 : d.app_state.selected_index < d.app_state.count) :
    ∃ win : WindowInfo,
      array_at d.app_state.windows d.app_state.selected_index = some win ∧
      (handle_command env d CMD_SELECT).2
        = [Call.get_name, Call.activate_window (some win.address)] ∧
      (handle_command env d CMD_SELECT).1.app_state = d.app_state ∧
      (handle_command env d CMD_SELECT).1.visible = false := by
  have hidx : d.app_state.selected_index.toNat < d.app_state.windows.length := by omega
  refine ⟨d.app_state.windows.get ⟨d.app_state.selected_index.toNat, hidx⟩, ?_, ?_, ?_, ?_⟩
  · unfold array_at
    rw [if_neg (by omega)]
    exact List.get?_eq_get hidx
  · rw [handle_command_select env d hv, select_and_hide_eq]
    have harr : array_at d.app_state.windows d.app_state.selected_index
        = some (d.app_state.windows.get ⟨d.app_state.selected_index.toNat, hidx⟩) := by
      unfold array_at
      rw [if_neg (by omega)]
      exact List.get?_eq_get hidx
    simp [hv, hb, hc, harr]
  · rw [handle_command_select env d hv, select_and_hide_eq]
    exact hide_switcher_app_state d
  · rw [handle_command_select env d hv, select_and_hide_eq]
    exact hide_switcher_hidden d

theorem select_activates_selected_witness :
    ∃ win : WindowInfo,
      array_at (handle_command sample_env (initial_daemon false) CMD_TOGGLE).1.app_state.windows
        (handle_command sample_env (initial_daemon false) CMD_TOGGLE).1.app_state.selected_index
        = some win ∧
      (handle_command sample_env
          (handle_command sample_env (initial_daemon false) CMD_TOGGLE).1 CMD_SELECT).2
        = [Call.get_name, Call.activate_window (some win.address)] ∧
      (handle_command sample_env
          (handle_command sample_env (initial_daemon false) CMD_TOGGLE).1 CMD_SELECT).1.app_state
        = (handle_command sample_env (initial_daemon false) CMD_TOGGLE).1.app_state ∧
      (handle_command sample_env
          (handle_command sample_env (initial_daemon false) CMD_TOGGLE).1 CMD_SELECT).1.visible
        = false :=
  select_activates_selected sample_env
    (handle_command sample_env (initial_daemon false) CMD_TOGGLE).1
    (by decide) (by decide) (by decide) (by decide) (by decide) (by decide)

/-- C7: handling SELECT while the switcher is visible and the registry is
empty makes no call at all (so no `activate_window`), leaves the registry
unchanged, and ends with the switcher hidden. -/
theorem select_empty_hides (env : Env) (d : Daemon) (hv : d.visible = true)
    (hc : d.app_state.count = 0) :
    (handle_command env d CMD_SELECT).2 = [] ∧
    (handle_command env d CMD_SELECT).1.app_state = d.app_state ∧
    (handle_command env d CMD_SELECT).1.visible = false := by
  rw [handle_command_select env d hv, select_and_hide_eq]
  refine ⟨?_, hide_switcher_app_state d, hide_switcher_hidden d⟩
  simp [hc]

theorem select_empty_hides_witness :
    (handle_command empty_env
        (handle_command empty_env (initial_daemon false) CMD_TOGGLE).1 CMD_SELECT).2 = [] ∧
    (handle_command empty_env
        (handle_command empty_env (initial_daemon false) CMD_TOGGLE).1 CMD_SELECT).1.app_state
      = (handle_command empty_env (initial_daemon false) CMD_TOGGLE).1.app_state ∧
    (handle_command empty_env
        (handle_command empty_env (initial_daemon false) CMD_TOGGLE).1 CMD_SELECT).1.visible
      = false :=
  select_empty_hides empty_env (handle_command empty_env (initial_daemon false) CMD_TOGGLE).1
    (by decide) (by decide)

/-- C8: in a node list with pairwise distinct nodes and pairwise distinct
identifiers, once the closed notification of a node `w` has been handled,
`wlr_activate_window` with the former identifier of `w` matches no node: the
backend state, hence the node list and its order, is unchanged, no activation
request is sent, and an initialised backend given a non-`NULL` identifier
reports "not found". -/
theorem closed_then_activate_not_found (st : WlrBackendState) (w : WindowNode)
    (hw : w ∈ st.windows)
    (haddr : (st.windows.map (fun n => n.addr)).Nodup)
    (hid : (st.windows.filterMap (fun n => n.identifier)).Nodup) :
    w ∉ (toplevel_handle_closed st w.addr).windows ∧
    (wlr_activate_window (toplevel_handle_closed st w.addr) w.identifier).1
      = toplevel_handle_closed st w.addr ∧
    (∀ request : Option Nat,
      (wlr_activate_window (toplevel_handle_closed st w.addr) w.identifier).2
        ≠ ActivateOutcome.matched request) ∧
    (st.initialized ≠ 0 → w.identifier ≠ none →
      (wlr_activate_window (toplevel_handle_closed st w.addr) w.identifier).2
        = ActivateOutcome.not_found) := by
  have hwin : (toplevel_handle_closed st w.addr).windows = unlink w.addr st.windows := by
    simp [toplevel_handle_closed, closed_unlink_windows]
  have hgone : w ∉ (toplevel_handle_closed st w.addr).windows := by
    rw [hwin]
    exact unlink_removes w st.windows hw haddr
  have hkey : ∃ o : ActivateOutcome,
      wlr_activate_window (toplevel_handle_closed st w.addr) w.identifier
        = (toplevel_handle_closed st w.addr, o) ∧
      (o = ActivateOutcome.rejected ∨ o = ActivateOutcome.not_found) ∧
      (st.initialized ≠ 0 → w.identifier ≠ none → o = ActivateOutcome.not_found) := by
    cases hident : w.identifier with
    | none =>
      exact ⟨ActivateOutcome.rejected, rfl, Or.inl rfl, fun _ h => absurd rfl h⟩
    | some ident =>
      have hscan : activate_scan (toplevel_handle_closed st w.addr) ident
          (toplevel_handle_closed st w.addr).windows
          = (toplevel_handle_closed st w.addr, ActivateOutcome.not_found) := by
        apply activate_scan_no_match
        rw [hwin]
        exact unlink_no_identifier ident w hident st.windows hw haddr hid
      by_cases hi : st.initialized = 0
      · refine ⟨ActivateOutcome.rejected, ?_, Or.inl rfl, fun hinit _ => absurd hi hinit⟩
        simp [wlr_activate_window, toplevel_handle_closed, hi]
      · refine ⟨ActivateOutcome.not_found, ?_, Or.inr rfl, fun _ _ => rfl⟩
        have hi2 : (toplevel_handle_closed st w.addr).initialized ≠ 0 := hi
        simp only [wlr_activate_window, hi2, if_false]
        exact hscan
  obtain ⟨o, hres, ho, hnf⟩ := hkey
  rw [hres]
  refine ⟨hgone, rfl, ?_, hnf⟩
  intro request hreq
  rcases ho with h | h <;> rw [h] at hreq <;> cases hreq

theorem closed_then_activate_not_found_witness :
    (wlr_activate_window (toplevel_handle_closed sample_backend 200) (some "wlr-0x14"))
      = (toplevel_handle_closed sample_backend 200, ActivateOutcome.not_found) :=
  Prod.ext
    (closed_then_activate_not_found sample_backend
      { addr := 200, handle := 20, title := some "notes", app_id := some "emacs",
        identifier := some "wlr-0x14", state := 2, is_active := 0, is_minimized := 1 }
      (by decide) (by decide) (by decide)).2.1
    ((closed_then_activate_not_found sample_backend
      { addr := 200, handle := 20, title := some "notes", app_id := some "emacs",
        identifier := some "wlr-0x14", state := 2, is_active := 0, is_minimized := 1 }
      (by decide) (by decide) (by decide)).2.2.2 (by decide) (by decide))

/-- C9: from an empty node list, the events "A appears, A's state becomes
activated, B appears, A closes" are all handled, the final node list holds
exactly the node of B, and after every one of the four steps no node of B in
the list has a non-zero `is_active`. -/
theorem appear_activate_appear_close (st0 : WlrBackendState) (hA a : Nat)
    (idA : Option String) (wl_state : List Nat) (hB b : Nat) (idB : Option String)
    (hempty : st0.windows = []) (ha : a ≠ 0) (hb : b ≠ 0) (hab : a ≠ b)
    (hact : ZWLR_FOREIGN_TOPLEVEL_HANDLE_V1_STATE_ACTIVATED ∈ wl_state) :
    ∃ st1 st2 st3 st4 : WlrBackendState,
      appear_state_appear_close st0 hA a idA wl_state hB b idB = some (st1, st2, st3, st4) ∧
      st4.windows =
        [{ addr := b, handle := hB, title := none, app_id := none, identifier := idB,
           state := 0, is_active := 0, is_minimized := 0 }] ∧
      (∀ n ∈ st2.windows, n.addr = a ∧ n.is_active = 1) ∧
      (∀ st ∈ [st1, st2, st3, st4], ∀ n ∈ st.windows, n.addr = b → n.is_active = 0) := by
  have hw_addr : (apply_states
      { addr := a, handle := hA, title := none, app_id := none, identifier := idA,
        state := 0, is_active := 0, is_minimized := 0 } wl_state).addr = a := by
    rw [apply_states_addr]
  have hw_act : (apply_states
      { addr := a, handle := hA, title := none, app_id := none, identifier := idA,
        state := 0, is_active := 0, is_minimized := 0 } wl_state).is_active = 1 := by
    rw [apply_states_is_active, if_pos hact]
  have hba : ¬ b = a := fun h => hab h.symm
  have hst1 : (manager_handle_toplevel st0 hA a idA).windows =
      [{ addr := a, handle := hA, title := none, app_id := none, identifier := idA,
         state := 0, is_active := 0, is_minimized := 0 }] := by
    simp [manager_handle_toplevel, ha, hempty]
  have hst2 : toplevel_handle_state (manager_handle_toplevel st0 hA a idA) a wl_state =
      some { manager_handle_toplevel st0 hA a idA with
        windows := [apply_states
          { addr := a, handle := hA, title := none, app_id := none, identifier := idA,
            state := 0, is_active := 0, is_minimized := 0 } wl_state] } := by
    simp only [toplevel_handle_state, hst1, List.find?, decide_True, store_node, if_true,
      hw_act, ne_eq, one_ne_zero, not_false_eq_true, move_window_to_front, hw_addr]
  refine ⟨manager_handle_toplevel st0 hA a idA,
    { manager_handle_toplevel st0 hA a idA with
        windows := [apply_states
          { addr := a, handle := hA, title := none, app_id := none, identifier := idA,
            state := 0, is_active := 0, is_minimized := 0 } wl_state] },
    manager_handle_toplevel
      { manager_handle_toplevel st0 hA a idA with
        windows := [apply_states
          { addr := a, handle := hA, title := none, app_id := none, identifier := idA,
            state := 0, is_active := 0, is_minimized := 0 } wl_state] } hB b idB,
    toplevel_handle_closed
      (manager_handle_toplevel
        { manager_handle_toplevel st0 hA a idA with
          windows := [apply_states
            { addr := a, handle := hA, title := none, app_id := none, identifier := idA,
              state := 0, is_active := 0, is_minimized := 0 } wl_state] } hB b idB) a,
    ?_, ?_, ?_, ?_⟩
  · simp only [appear_state_appear_close, hst2]
  · simp [manager_handle_toplevel, hb, toplevel_handle_closed, closed_unlink, hba, hw_addr]
  · intro n hn
    simp only [List.mem_singleton] at hn
    rw [hn]
    exact ⟨hw_addr, hw_act⟩
  · intro st hst n hn hnb
    simp only [List.mem_cons, List.mem_singleton, List.not_mem_nil, or_false] at hst
    rcases hst with h | h | h | h
    · rw [h, hst1] at hn
      simp only [List.mem_singleton] at hn
      rw [hn] at hnb
      exact absurd hnb hab
    · rw [h] at hn
      simp only [List.mem_singleton] at hn
      rw [hn, hw_addr] at hnb
      exact absurd hnb hab
    · rw [h] at hn
      simp [manager_handle_toplevel, hb] at hn
      rcases hn with hn | hn
      · rw [hn]
      · rw [hn, hw_addr] at hnb
        exact absurd hnb hab
    · rw [h] at hn
      simp [manager_handle_toplevel, hb, toplevel_handle_closed, closed_unlink, hba, hw_addr]
        at hn
      rw [hn]

theorem appear_activate_appear_close_witness :
    ∃ st1 st2 st3 st4 : WlrBackendState,
      appear_state_appear_close backend_state_zero 10 100 (some "wlr-0xa") [2] 20 200
        (some "wlr-0x14") = some (st1, st2, st3, st4) ∧
      st4.windows =
        [{ addr := 200, handle := 20, title := none, app_id := none,
           identifier := some "wlr-0x14", state := 0, is_active := 0, is_minimized := 0 }] ∧
      (∀ n ∈ st2.windows, n.addr = 100 ∧ n.is_active = 1) ∧
      (∀ st ∈ [st1, st2, st3, st4], ∀ n ∈ st.windows, n.addr = 200 → n.is_active = 0) :=
  appear_activate_appear_close backend_state_zero 10 100 (some "wlr-0xa") [2] 20 200
    (some "wlr-0x14") rfl (by decide) (by decide) (by decide) (by decide)

/-- C10: `move_window_to_front` is idempotent: for every backend state and
every node (in the list or not, or a `NULL` pointer), a second call with the
same node leaves the state, hence the list order, as the first call left
it. -/
theorem move_window_to_front_idempotent (st : WlrBackendState) (window : Option WindowNode) :
    move_window_to_front (move_window_to_front st window) window
      = move_window_to_front st window := by
  cases window with
  | none => rfl
  | some w =>
    cases hl : st.windows with
    | nil => simp [move_window_to_front, hl]
    | cons head rest =>
      by_cases hhead : w.addr = head.addr
      · simp [move_window_to_front, hl, hhead]
      · simp [move_window_to_front, hl, hhead]

/-- C11: for an initialised protocol-listener backend whose `window_count` is
the length of its node list, when every append succeeds `wlr_get_windows`
returns `0` and leaves a registry with exactly one entry per non-minimized
node, in node-list order and none for a minimized node; every entry carries
its node's identifier as address (the empty string for a node without
identifier buffer), `group_count == 1` and `workspace_id == 0`. -/
theorem wlr_get_windows_lists_shown_nodes (bs : WlrBackendState) (alloc : Nat → Bool)
    (state : AppState) (hi : bs.initialized ≠ 0)
    (hcount : bs.window_count = bs.windows.length) (halloc : ∀ i, alloc i = true) :
    (wlr_get_windows bs alloc state).1 = 0 ∧
    (wlr_get_windows bs alloc state).2.windows
      = (bs.windows.filter (fun n => decide (n.is_minimized = 0))).map window_info_of_node ∧
    (wlr_get_windows bs alloc state).2.count
      = (bs.windows.filter (fun n => decide (n.is_minimized = 0))).length ∧
    (∀ n : WindowNode,
      (window_info_of_node n).address = n.identifier.getD "" ∧
      (∀ ident : String, n.identifier = some ident → (window_info_of_node n).address = ident) ∧
      (window_info_of_node n).group_count = 1 ∧
      (window_info_of_node n).workspace_id = 0) := by
  refine ⟨wlr_get_windows_result bs alloc state hi, ?_, ?_, ?_⟩
  · unfold wlr_get_windows
    rw [if_neg hi]
    simp only
    by_cases h0 : bs.window_count = 0
    · have hnil : bs.windows = [] := by
        apply List.eq_nil_of_length_eq_zero
        omega
      simp [h0, hnil, app_state_init]
    · rw [if_neg h0]
      obtain ⟨_, hw, _⟩ := get_windows_loop_fill alloc halloc bs.windows 0 _
        (app_state_init_shape (app_state_free state))
      rw [hw]
      simp [app_state_init, shown_nodes]
  · unfold wlr_get_windows
    rw [if_neg hi]
    simp only
    by_cases h0 : bs.window_count = 0
    · have hnil : bs.windows = [] := by
        apply List.eq_nil_of_length_eq_zero
        omega
      simp [h0, hnil, app_state_init]
    · rw [if_neg h0]
      obtain ⟨_, _, hc⟩ := get_windows_loop_fill alloc halloc bs.windows 0 _
        (app_state_init_shape (app_state_free state))
      rw [hc]
      simp [app_state_init, shown_nodes]
  · intro n
    refine ⟨rfl, ?_, rfl, rfl⟩
    intro ident hident
    simp [window_info_of_node, hident]

theorem wlr_get_windows_lists_shown_nodes_witness :
    (wlr_get_windows sample_backend (fun _ => true)
        (app_state_init (initial_daemon false).app_state)).2.windows
      = [window_info_of_node sample_term, window_info_of_node sample_untitled] :=
  (wlr_get_windows_lists_shown_nodes sample_backend (fun _ => true)
    (app_state_init (initial_daemon false).app_state) (by decide) (by decide)
    (fun _ => rfl)).2.1

/-- C12: after clearing the registry (`app_state_free`, `app_state_init`), any
`N` successful `app_state_add` calls leave `count == N` with entry `i` the
`i`-th appended window, and after every call (after the first `k` calls, for
each `k <= N`) `count == k <= capacity`, where the capacity is `0` or `32`
doubled some number of times, and was doubled only when the entries no longer
fitted. -/
theorem rebuild_registry (s : AppState) (calls : List (WindowInfo × Bool))
    (hok : ∀ r ∈ (app_state_add_all (app_state_init (app_state_free s)) calls).2, r = 0) :
    (app_state_add_all (app_state_init (app_state_free s)) calls).1.count = calls.length ∧
    (app_state_add_all (app_state_init (app_state_free s)) calls).1.windows
      = calls.map Prod.fst ∧
    (∀ k : Nat, k ≤ calls.length →
      (app_state_add_all (app_state_init (app_state_free s)) (calls.take k)).1.count = k ∧
      RegistryShape (app_state_add_all (app_state_init (app_state_free s)) (calls.take k)).1) := by
  have hinit := app_state_init_shape (app_state_free s)
  obtain ⟨_, hw, hc⟩ := app_state_add_all_shape calls _ hinit hok
  refine ⟨?_, ?_, ?_⟩
  · rw [hc]; simp [app_state_init]
  · rw [hw]; simp [app_state_init]
  · intro k hk
    have hokk : ∀ r ∈ (app_state_add_all (app_state_init (app_state_free s)) (calls.take k)).2,
        r = 0 := by
      intro r hr
      rw [app_state_add_all_take] at hr
      exact hok r (List.mem_of_mem_take hr)
    obtain ⟨hshape, _, hck⟩ := app_state_add_all_shape (calls.take k) _ hinit hokk
    refine ⟨?_, hshape⟩
    rw [hck]
    simp [app_state_init, hk]

theorem rebuild_registry_witness :
    (app_state_add_all (app_state_init (app_state_free sample_env_registry)) sample_calls).1.count
      = 3 :=
  (rebuild_registry sample_env_registry sample_calls
    (by simp [app_state_add_all, app_state_add, app_state_store, app_state_init,
          app_state_free, sample_calls, INITIAL_CAPACITY])).1

/-- C13: for a node of the list and any state array `S`, after
`toplevel_handle_state` the node's `is_active` is set iff `S` contains
ACTIVATED and its `is_minimized` is set iff `S` contains MINIMIZED, whatever
the flags were before; if the node is active afterwards it is the first node
of the list, and otherwise the list keeps its order (only the contents of
that node changed). -/
theorem state_notification_recomputes (st : WlrBackendState) (window : Nat)
    (wl_state : List Nat) (hlive : ∃ n ∈ st.windows, n.addr = window) :
    ∃ (st1 : WlrBackendState) (w : WindowNode),
      toplevel_handle_state st window wl_state = some st1 ∧
      st1.windows.find? (fun n => decide (n.addr = window)) = some w ∧
      (w.is_active ≠ 0 ↔ ZWLR_FOREIGN_TOPLEVEL_HANDLE_V1_STATE_ACTIVATED ∈ wl_state) ∧
      (w.is_minimized ≠ 0 ↔ ZWLR_FOREIGN_TOPLEVEL_HANDLE_V1_STATE_MINIMIZED ∈ wl_state) ∧
      (w.is_active ≠ 0 → st1.windows.head? = some w) ∧
      (w.is_active = 0 →
        st1.windows = store_node w st.windows ∧
        st1.windows.map (fun n => n.addr) = st.windows.map (fun n => n.addr)) := by
  obtain ⟨w0, hf, hw0, _⟩ := find_addr window st.windows hlive
  obtain ⟨w, hw⟩ : ∃ w, w = apply_states
      { w0 with state := 0, is_active := 0, is_minimized := 0 } wl_state := ⟨_, rfl⟩
  have haddr : w.addr = window := by rw [hw, apply_states_addr]; exact hw0
  have hact : w.is_active =
      if ZWLR_FOREIGN_TOPLEVEL_HANDLE_V1_STATE_ACTIVATED ∈ wl_state then 1 else 0 := by
    rw [hw, apply_states_is_active]
  have hmin : w.is_minimized =
      if ZWLR_FOREIGN_TOPLEVEL_HANDLE_V1_STATE_MINIMIZED ∈ wl_state then 1 else 0 := by
    rw [hw, apply_states_is_minimized]
  have hiffa : w.is_active ≠ 0 ↔
      ZWLR_FOREIGN_TOPLEVEL_HANDLE_V1_STATE_ACTIVATED ∈ wl_state := by
    rw [hact]; split <;> simp [*]
  have hiffm : w.is_minimized ≠ 0 ↔
      ZWLR_FOREIGN_TOPLEVEL_HANDLE_V1_STATE_MINIMIZED ∈ wl_state := by
    rw [hmin]; split <;> simp [*]
  have hlive2 : ∃ n ∈ st.windows, n.addr = w.addr := by
    rw [haddr]; exact hlive
  have hsf : (store_node w st.windows).find? (fun n => decide (n.addr = w.addr)) = some w :=
    store_node_find w st.windows hlive2
  have heq := toplevel_handle_state_eq st window wl_state w0 w hf hw
  by_cases ha : w.is_active ≠ 0
  · rw [if_pos ha] at heq
    have hhead := move_window_to_front_head { st with windows := store_node w st.windows } w hsf
    refine ⟨_, w, heq, find_of_head window w _ hhead haddr, hiffa, hiffm, fun _ => hhead, ?_⟩
    intro h0
    exact absurd h0 ha
  · rw [if_neg ha] at heq
    refine ⟨_, w, heq, ?_, hiffa, hiffm, fun h => absurd h ha, fun _ => ⟨rfl, ?_⟩⟩
    · rw [← haddr]; exact hsf
    · exact store_node_addrs w st.windows

theorem state_notification_recomputes_witness :
    ∃ (st1 : WlrBackendState) (w : WindowNode),
      toplevel_handle_state sample_backend 100 [2, 0] = some st1 ∧
      st1.windows.find? (fun n => decide (n.addr = 100)) = some w ∧
      (w.is_active ≠ 0 ↔ ZWLR_FOREIGN_TOPLEVEL_HANDLE_V1_STATE_ACTIVATED ∈ [2, 0]) ∧
      (w.is_minimized ≠ 0 ↔ ZWLR_FOREIGN_TOPLEVEL_HANDLE_V1_STATE_MINIMIZED ∈ [2, 0]) ∧
      (w.is_active ≠ 0 → st1.windows.head? = some w) ∧
      (w.is_active = 0 →
        st1.windows = store_node w sample_backend.windows ∧
        st1.windows.map (fun n => n.addr) = sample_backend.windows.map (fun n => n.addr)) :=
  state_notification_recomputes sample_backend 100 [2, 0] ⟨sample_untitled, by decide, rfl⟩

/-- C14: in an initialised backend whose nodes are pairwise distinct and carry
their (non-`NULL`) handles, for an identifier that matches a node of the list,
`wlr_activate_window` moves the first matching node to the front and keeps
every other node in its relative order (the new list is that node followed by
the old list without it, a permutation of the old list), and it sends the
activation request for that node's handle iff a seat was advertised; with no
seat only the reordering happens. -/
theorem activate_moves_to_front (bs : WlrBackendState) (ident : String) (n : WindowNode)
    (hi : bs.initialized ≠ 0) (haddr : (bs.windows.map (fun n => n.addr)).Nodup)
    (hhandle : ∀ m ∈ bs.windows, m.handle ≠ 0)
    (hn : n ∈ bs.windows) (hid : n.identifier = some ident) :
    ∃ curr : WindowNode,
      bs.windows.find? (fun m => decide (m.identifier = some ident)) = some curr ∧
      (wlr_activate_window bs (some ident)).1
        = { bs with windows := curr :: bs.windows.erase curr } ∧
      List.Perm (wlr_activate_window bs (some ident)).1.windows bs.windows ∧
      (bs.seat ≠ 0 →
        (wlr_activate_window bs (some ident)).2 = ActivateOutcome.matched (some curr.handle)) ∧
      (bs.seat = 0 →
        (wlr_activate_window bs (some ident)).2 = ActivateOutcome.matched none) := by
  have hsome : (bs.windows.find? (fun m => decide (m.identifier = some ident))).isSome := by
    rw [List.find?_isSome]
    exact ⟨n, hn, by simp [hid]⟩
  obtain ⟨curr, hfind⟩ := Option.isSome_iff_exists.mp hsome
  have hcurr : curr ∈ bs.windows := List.mem_of_find?_eq_some hfind
  have hres : wlr_activate_window bs (some ident) =
      (move_window_to_front bs (some curr),
       ActivateOutcome.matched
         (if curr.handle ≠ 0 ∧ bs.seat ≠ 0 then some curr.handle else none)) := by
    simp only [wlr_activate_window, hi, if_false]
    exact activate_scan_find bs ident curr bs.windows hfind
  rw [hres, move_window_to_front_erase bs curr hcurr haddr]
  refine ⟨curr, hfind, rfl, (List.perm_cons_erase hcurr).symm, ?_, ?_⟩
  · intro hseat
    simp [hhandle curr hcurr, hseat]
  · intro hseat
    simp [hseat]

theorem activate_moves_to_front_witness :
    (wlr_activate_window sample_backend (some "wlr-0xa")).1.windows
        = [sample_untitled, sample_term, sample_notes] ∧
    (wlr_activate_window sample_backend (some "wlr-0xa")).2
        = ActivateOutcome.matched (some 10) := by
  obtain ⟨curr, hfind, hst, _, hreq, _⟩ :=
    activate_moves_to_front sample_backend "wlr-0xa" sample_untitled
      (by decide) (by decide) (by decide) (by decide) rfl
  have hc : curr = sample_untitled := by
    have h2 : sample_backend.windows.find? (fun m => decide (m.identifier = some "wlr-0xa"))
        = some sample_untitled := by decide
    rw [h2] at hfind
    exact (Option.some.inj hfind).symm
  subst hc
  refine ⟨?_, hreq (by decide)⟩
  rw [hst]
  decide

/-- C15: in an iteration of the loop of `run_daemon` whose
`wl_display_prepare_read` succeeded, whatever the wait returned, if the
iteration reaches the loop test again (by `continue` or by falling through to
the socket commands) then it has made exactly one call among
`wl_display_read_events` and `wl_display_cancel_read`, the read only when
`poll` succeeded and reported `POLLIN` on the compositor descriptor; the
read was armed when `poll` returned (after the first three calls) and is no
longer armed at the end. -/
theorem prepared_read_released (i : IterationInput) (hprep : i.prepare_ret = 0)
    (hloop : (reactor_iteration i).2 ≠ LoopControl.leave) :
    (reactor_iteration i).1.count DisplayCall.read_events
      + (reactor_iteration i).1.count DisplayCall.cancel_read = 1 ∧
    (DisplayCall.read_events ∈ (reactor_iteration i).1 →
      0 ≤ i.wait.ret ∧ i.wait.revents0 &&& POLLIN ≠ 0) ∧
    armed_after false ((reactor_iteration i).1.take 3) = true ∧
    armed_after false (reactor_iteration i).1 = false := by
  have hp : ¬ i.prepare_ret ≠ 0 := fun h => h hprep
  unfold reactor_iteration at hloop ⊢
  rw [if_neg hp] at hloop ⊢
  by_cases h1 : i.wait.ret < 0
  · rw [if_pos h1] at hloop ⊢
    by_cases h2 : i.wait.errno = EINTR
    · rw [if_pos h2]
      simp [hprep, armed_after, List.take]
    · rw [if_neg h2] at hloop
      exact absurd rfl hloop
  · rw [if_neg h1] at hloop ⊢
    by_cases h3 : i.wait.revents0 &&& (POLLERR ||| POLLHUP) ≠ 0
    · rw [if_pos h3] at hloop
      exact absurd rfl hloop
    · rw [if_neg h3] at hloop ⊢
      by_cases h4 : i.wait.revents0 &&& POLLIN ≠ 0
      · rw [if_pos h4] at hloop ⊢
        by_cases h5 : i.read_ret = -1
        · rw [if_pos h5] at hloop
          exact absurd rfl hloop
        · rw [if_neg h5] at hloop ⊢
          by_cases h6 : i.dispatch_ret = -1
          · rw [if_pos h6] at hloop
            exact absurd rfl hloop
          · rw [if_neg h6]
            refine ⟨by simp, fun _ => ⟨by omega, h4⟩, ?_, ?_⟩ <;>
              simp [hprep, armed_after, List.take]
      · rw [if_neg h4]
        simp [hprep, armed_after, List.take]

theorem prepared_read_released_witness :
    armed_after false
      (reactor_iteration
        { prepare_ret := 0, pending_ret := 0,
          wait := { ret := 0, errno := 0, revents0 := 0, revents1 := 0 },
          read_ret := 0, dispatch_ret := 0 }).1 = false :=
  (prepared_read_released
    { prepare_ret := 0, pending_ret := 0,
      wait := { ret := 0, errno := 0, revents0 := 0, revents1 := 0 },
      read_ret := 0, dispatch_ret := 0 } rfl (by decide)).2.2.2

/-- C16: from the empty node list with `window_count == 0`, for every
sequence of toplevel, state and closed notifications and `wlr_activate_window`
calls in which each notification names a node that is in the list at that
moment, every event is handled and after every step `window_count` equals the
number of nodes in the list, so that `window_count == 0` exactly when the list
is empty. -/
theorem window_count_tracks_list (st0 : WlrBackendState) (events : List BackendEvent)
    (hempty : st0.windows = []) (hzero : st0.window_count = 0)
    (hlive : events_on_live_nodes st0 events = true) :
    ∃ states : List WlrBackendState,
      backend_run st0 events = some states ∧ states.length = events.length ∧
      ∀ s ∈ states,
        s.window_count = s.windows.length ∧ (s.window_count = 0 ↔ s.windows = []) := by
  have hinv : st0.window_count = st0.windows.length := by simp [hempty, hzero]
  obtain ⟨states, hrun, hlen, hall⟩ := backend_run_count events st0 hinv hlive
  refine ⟨states, hrun, hlen, fun s hs => ⟨hall s hs, ?_⟩⟩
  rw [hall s hs]
  constructor
  · intro h
    apply List.eq_nil_of_length_eq_zero
    omega
  · intro h
    simp [h]

theorem window_count_tracks_list_witness :
    ∃ states : List WlrBackendState,
      backend_run { backend_state_zero with seat := 7, initialized := 1 } sample_events
        = some states ∧
      states.length = sample_events.length ∧
      ∀ s ∈ states,
        s.window_count = s.windows.length ∧ (s.window_count = 0 ↔ s.windows = []) :=
  window_count_tracks_list { backend_state_zero with seat := 7, initialized := 1 }
    sample_events rfl rfl (by decide)

end Wswitch
